import Mathlib

/-!
Verification of the CC/PBSA orchestration layer (`src/ccpbsa/CCPBSA.py`).

Python strings are modelled as `List Char` (`PyStr`), Python floats as
exact rationals, fallible Python operations (`list.index`, `str.index`,
`int(...)`, `float(...)`, indexing, missing table keys) as `Option` /
`Except`.  Each definition below embeds the correspondingly named
function or method of the source file; external subprocess invocations
are modelled by the argument vectors the code would pass to them, and
the directory/file state by explicit fields of a state structure.
-/

set_option maxRecDepth 4096

namespace CCPBSA

/-- Python strings, modelled as lists of characters. -/
abbrev PyStr := List Char

/-- Convert a Lean string literal into the `PyStr` model. -/
def pystr (s : String) : PyStr := s.data

instance {ε α : Type} [DecidableEq ε] [DecidableEq α] : DecidableEq (Except ε α)
  | .error e, .error f =>
    if h : e = f then isTrue (by rw [h])
    else isFalse (fun hh => h (by injection hh))
  | .error _, .ok _ => isFalse (fun hh => Except.noConfusion hh)
  | .ok _, .error _ => isFalse (fun hh => Except.noConfusion hh)
  | .ok a, .ok b =>
    if h : a = b then isTrue (by rw [h])
    else isFalse (fun hh => h (by injection hh))

/-- Map an `Option`-valued function over a list, failing when any
element fails (Python: the first raised exception aborts the
comprehension). -/
def optMapM {α β : Type} (f : α → Option β) : List α → Option (List β)
  | [] => some []
  | a :: as =>
    match f a with
    | none => none
    | some b =>
      match optMapM f as with
      | none => none
      | some bs => some (b :: bs)

/-- Map an `Except`-valued function over a list, failing on the first
error. -/
def excMapM {α β : Type} (f : α → Except PyStr β) : List α → Except PyStr (List β)
  | [] => .ok []
  | a :: as =>
    match f a with
    | .error e => .error e
    | .ok b =>
      match excMapM f as with
      | .error e => .error e
      | .ok bs => .ok (b :: bs)

/-- Left fold with an `Except`-valued step, failing on the first
error. -/
def excFoldlM {σ α : Type} (f : σ → α → Except PyStr σ) : σ → List α → Except PyStr σ
  | s, [] => .ok s
  | s, a :: as =>
    match f s a with
    | .error e => .error e
    | .ok s2 => excFoldlM f s2 as

/-- Decimal value of a list of digit characters (`int` on an all-digit
string); the fold mirrors positional base-10 reading. -/
def decNat (ds : PyStr) : ℕ :=
  ds.foldl (fun a c => 10 * a + (c.toNat - 48)) 0

/-- `int_in_str` (CCPBSA.py line 20): keep the digit characters of the
string and read them as a base-10 integer.  `int('')` raises in Python,
hence `none` when the string holds no digit. -/
def int_in_str (s : PyStr) : Option ℕ :=
  let ds := s.filter Char.isDigit
  if ds = [] then none else some (decNat ds)

/-- Python `s.split(sep)` for a one-character separator: always returns
`count sep s + 1` (possibly empty) fields. -/
def pySplit (sep : Char) : PyStr → List PyStr
  | [] => [[]]
  | c :: cs =>
    match pySplit sep cs with
    | [] => [[]]
    | p :: ps => if c = sep then [] :: p :: ps else (c :: p) :: ps

/-- The one-letter to three-letter amino-acid table of `parse_mutlist`
(CCPBSA.py lines 219-222), as an association list. -/
def aa123 : List (Char × PyStr) :=
  [('A', pystr "ALA"), ('C', pystr "CYS"), ('D', pystr "ASP"),
   ('E', pystr "GLU"), ('F', pystr "PHE"), ('G', pystr "GLY"),
   ('H', pystr "HIS"), ('I', pystr "ILE"), ('K', pystr "LYS"),
   ('L', pystr "LEU"), ('M', pystr "MET"), ('N', pystr "ASN"),
   ('P', pystr "PRO"), ('Q', pystr "GLN"), ('R', pystr "ARG"),
   ('S', pystr "SER"), ('T', pystr "THR"), ('V', pystr "VAL"),
   ('W', pystr "TRP"), ('Y', pystr "TYR")]

/-- Dictionary lookup (`aa123[c]`); `none` models Python's `KeyError`. -/
def aaLookup (c : Char) : Option PyStr :=
  (aa123.find? (fun p => p.1 = c)).map Prod.snd

/-- One parsed row of the mutation table of `parse_mutlist`:
columns `Chain`, `AA`, `Residue`, `Mutation`. -/
structure MutRec where
  chain : PyStr
  aa : Char
  residue : ℕ
  mutation : PyStr
  deriving Repr, DecidableEq

/-- First index of `c` in `s` (`str.index` / `list.index`), `none` when
absent (Python raises there). -/
def pyIdxOfChar (c : Char) : PyStr → Option ℕ
  | [] => none
  | d :: ds => if d = c then some 0 else (pyIdxOfChar c ds).map (· + 1)

/-- `DataGenerator.parse_mutlist` on one mutation line (CCPBSA.py lines
228-235): `Chain = i[0] if '_' in i else ''`,
`AA = i[0] if '_' not in i else i[i.index('_')+1]`,
`Residue = int_in_str(i)`, `Mutation = aa123[i[-1]]`. -/
def parseMutLine (i : PyStr) : Option MutRec := do
  let chain : PyStr ← if ('_' ∈ i) then (i.head?).map (fun c => [c]) else some []
  let aa ←
    if ('_' ∈ i) then do
      let p ← pyIdxOfChar '_' i
      i.get? (p + 1)
    else i.head?
  let residue ← int_in_str i
  let last ← i.getLast?
  let mutation ← aaLookup last
  pure ⟨chain, aa, residue, mutation⟩

/-- `DataGenerator.parse_mutlist` (CCPBSA.py lines 208-237): each line
of the mutation file is parsed independently; the resulting table is
indexed by the raw line. -/
def parse_mutlist (lines : List PyStr) : Option (List (PyStr × MutRec)) :=
  optMapM (fun l => (parseMutLine l).map (fun r => (l, r))) lines

/-! ### Flag-file parsing (`DataGenerator.parse_flags`, lines 146-205) -/

/-- `line[:line.index(';')] if ';' in line else line`: strip an inline
`;` comment. -/
def stripComment (l : PyStr) : PyStr := l.takeWhile (· ≠ ';')

/-- Python `str.split()` with no argument: split on runs of whitespace,
dropping empty fields. -/
def pyWords (s : PyStr) : List PyStr :=
  (s.splitOnP Char.isWhitespace).filter (· ≠ [])

/-- `' '.join(line.split())`: collapse whitespace runs to single
spaces. -/
def pyNormalize (s : PyStr) : PyStr :=
  List.intercalate (pystr " ") (pyWords s)

/-- Lines 186-191 of `parse_flags`: strip comments, keep comment-stripped
lines that are non-empty, and normalize their whitespace.  The input is
the raw flag file as a list of lines (without their `\n`). -/
def preprocess (raw : List PyStr) : List PyStr :=
  ((raw.map stripComment).filter (· ≠ [])).map pyNormalize

/-- First index of `x` in the list (`list.index`), `none` when absent
(Python raises `ValueError`). -/
def pyIndex (l : List PyStr) (x : PyStr) : Option ℕ :=
  match l with
  | [] => none
  | y :: ys => if y = x then some 0 else (pyIndex ys x).map (· + 1)

/-- The six expected category headers, in the iteration order of the
nested `parsed_flags` dictionary (lines 167-178). -/
def expectedHeaders : List PyStr :=
  [pystr "DIST FLAGS", pystr "DISCO FLAGS", pystr "PDB2GMX FLAGS",
   pystr "EDITCONF FLAGS", pystr "GROMPP FLAGS", pystr "MDRUN FLAGS"]

/-- Line 194: `idx = [uncommented.index(j) for i in parsed_flags.values()
for j in i]`.  The first absent header aborts the comprehension with an
error naming it. -/
def allIndices (unc : List PyStr) : List PyStr → Except PyStr (List ℕ)
  | [] => .ok []
  | h :: hs =>
    match pyIndex unc h with
    | none => .error h
    | some p => (allIndices unc hs).map (fun ps => p :: ps)

/-- Python slice `l[a:b]` for non-negative bounds. -/
def pySlice {α : Type} (l : List α) (a b : ℕ) : List α :=
  (l.drop a).take (b - a)

/-- The section-slicing phase of `parse_flags` (lines 194-204): locate
the six category headers by `list.index` in the preprocessed lines,
then flatten every `key=value` line between consecutive headers into
the ordered token list of the category.  The result lists the six
categories in the order of `expectedHeaders`; the error carries the
first missing header (Python's `ValueError`). -/
def parse_flags_unc (unc : List PyStr) : Except PyStr (List (List PyStr)) :=
  match allIndices unc expectedHeaders with
  | .error h => .error h
  | .ok ps =>
    let idxs := ps ++ [unc.length]
    .ok ((idxs.zip idxs.tail).map (fun ab =>
      (pySlice unc (ab.1 + 1) ab.2).flatMap (pySplit '=')))

/-- `DataGenerator.parse_flags` (lines 146-205): preprocessing followed
by section slicing. -/
def parse_flags (raw : List PyStr) : Except PyStr (List (List PyStr)) :=
  parse_flags_unc (preprocess raw)

/-! ### The `DataGenerator` state and pipeline stages -/

/-- Decimal digit character. -/
def digitChar (d : ℕ) : Char :=
  if d = 0 then '0' else if d = 1 then '1' else if d = 2 then '2'
  else if d = 3 then '3' else if d = 4 then '4' else if d = 5 then '5'
  else if d = 6 then '6' else if d = 7 then '7' else if d = 8 then '8'
  else '9'

/-- Python `str(n)` for a natural number. -/
def natRepr (n : ℕ) : PyStr :=
  if _h : n < 10 then [digitChar n]
  else natRepr (n / 10) ++ [digitChar (n % 10)]
  decreasing_by
    exact Nat.div_lt_self (by omega) (by omega)

/-- `int()` on an optionally signed run of decimal digits; `none` models
Python's `ValueError` on other strings (whitespace padding and
underscore separators are outside the modelled fragment). -/
def digitsVal (ds : PyStr) : Option ℕ :=
  if ds ≠ [] ∧ ds.all Char.isDigit then some (decNat ds) else none

/-- Signed `int()` (see `digitsVal`). -/
def pyInt : PyStr → Option ℤ
  | '-' :: ds => (digitsVal ds).map (fun n => -(n : ℤ))
  | '+' :: ds => (digitsVal ds).map (fun n => (n : ℤ))
  | ds => (digitsVal ds).map (fun n => (n : ℤ))

/-- `d.split('/')[-1]`: the final path component of a directory path. -/
def lastComponent (s : PyStr) : PyStr :=
  (s.reverse.takeWhile (· ≠ '/')).reverse

/-- The mutable state of a `DataGenerator` object (CCPBSA.py lines
84-123): parsed flag categories, auxiliary file names, mode, the
`minimized` flag, chain names, the wildtype name (`__repr__`), the
mutation keys (`mut_df.index`), the main directory and the working
directory list. -/
structure GenState where
  distFlags : List PyStr
  discoFlags : List PyStr
  pdb2gmxFlags : List PyStr
  editconfFlags : List PyStr
  gromppFlags : List PyStr
  mdrunFlags : List PyStr
  eMdp : PyStr
  minMdp : PyStr
  mdrunTable : PyStr
  pbeparams : PyStr
  mode : PyStr
  minimized : Bool
  chains : List PyStr
  name : PyStr
  mutKeys : List PyStr
  maindir : PyStr
  wdlist : List PyStr
  deriving Repr, DecidableEq

/-- `DataGenerator.__len__` (lines 138-143): the integer value of the
token following `'-n'` in the `DISCO FLAGS` list; `none` when `'-n'` is
absent, has no successor, or the token is not an integer literal
(Python raises there). -/
def lenDG (st : GenState) : Option ℤ := do
  let p ← pyIndex st.discoFlags (pystr "-n")
  let t ← st.discoFlags.get? (p + 1)
  pyInt t

/-- An external command, as the argument vector passed to
`subprocess.run`. -/
abbrev Cmd := List PyStr

/-- `gmx` (lines 38-46): prepend `gmx -quiet` to the argument list. -/
def gmxCmd (args : List PyStr) : Cmd := pystr "gmx" :: pystr "-quiet" :: args

/-- The `dist` and `disco` invocations of `concoord` for one working
directory (lines 282-304), with the configured extra flags appended. -/
def concoordCmds (st : GenState) (d : PyStr) : List Cmd :=
  let fpf := lastComponent d
  [(pystr "dist" :: pystr "-p" :: (fpf ++ pystr ".pdb") ::
      pystr "-op" :: (fpf ++ pystr "_dist.pdb") ::
      pystr "-og" :: (fpf ++ pystr "_dist.gro") ::
      pystr "-od" :: (fpf ++ pystr "_dist.dat") :: []) ++ st.distFlags,
   (pystr "disco" :: pystr "-d" :: (fpf ++ pystr "_dist.dat") ::
      pystr "-p" :: (fpf ++ pystr "_dist.pdb") ::
      pystr "-op" :: pystr "" ::
      pystr "-or" :: (fpf ++ pystr "_disco.rms") ::
      pystr "-of" :: (fpf ++ pystr "_disco_Bfac.pdb") :: []) ++ st.discoFlags]

/-- `DataGenerator.concoord` (lines 276-315): run `dist`/`disco` in each
working directory, create one numbered sub-directory per sampled
conformer, and replace the working-directory list by the numbered
sub-directories (`self.wdlist = [d+'/'+str(n) for d in self.wdlist for n
in range(1, len(self)+1)]`).  The `makedir`/`shutil.move` calls only
touch the filesystem and are represented by the returned commands and
the updated list. -/
def concoord (st : GenState) : Except PyStr (List Cmd × GenState) :=
  match lenDG st with
  | none => .error (pystr "'-n' is not in list")
  | some z =>
    .ok (st.wdlist.flatMap (concoordCmds st),
      { st with wdlist := st.wdlist.flatMap (fun d =>
          (List.range z.toNat).map (fun n => d ++ pystr "/" ++ natRepr (n + 1))) })

/-- The assertion message `ERRORSTR` (lines 15-17). -/
def ERRORSTR : PyStr :=
  pystr "Bad energy values from unminimized structures.\nChange .minimized to True or run the minimize method first.\n"

/-- The commands `coulomb_lj` runs in one conformer directory (lines
437-496): single-point `grompp`/`mdrun` with the last two gmx flag
categories appended, two `gmx energy` extractions, and, in affinity
mode, the same per chain (the in-place `topol.top` comment/revert edit
of the affinity branch is a file rewrite, modelled separately by
`commentChains`/`revertChains`). -/
def coulombLjCmds (st : GenState) : List Cmd :=
  [gmxCmd ((pystr "grompp" :: pystr "-f" :: st.eMdp :: pystr "-c" ::
      pystr "confout.gro" :: pystr "-o" :: pystr "sp.tpr" :: []) ++ st.gromppFlags),
   gmxCmd ((pystr "mdrun" :: pystr "-s" :: pystr "sp.tpr" :: pystr "-rerun" ::
      pystr "confout.gro" :: pystr "-deffnm" :: pystr "sp" :: []) ++ st.mdrunFlags),
   gmxCmd [pystr "energy", pystr "-f", pystr "sp.edr", pystr "-sum", pystr "yes"],
   gmxCmd [pystr "energy", pystr "-f", pystr "sp.edr", pystr "-sum", pystr "yes"]]
  ++ (if st.mode = pystr "affinity" then
      st.chains.flatMap (fun c =>
        [gmxCmd ((pystr "grompp" :: pystr "-f" :: st.eMdp :: pystr "-c" ::
            (pystr "chain_" ++ c ++ pystr "_confout.gro") :: pystr "-o" ::
            (pystr "chain_" ++ c ++ pystr "_lj.tpr") :: []) ++ st.gromppFlags),
         gmxCmd ((pystr "mdrun" :: pystr "-s" :: (pystr "chain_" ++ c ++ pystr "_lj.tpr") ::
            pystr "-rerun" :: (pystr "chain_" ++ c ++ pystr "_confout.gro") ::
            pystr "-deffnm" :: (pystr "chain_" ++ c ++ pystr "_sp") :: []) ++ st.mdrunFlags),
         gmxCmd [pystr "energy", pystr "-f", pystr "chain_" ++ c ++ pystr "_sp.edr",
            pystr "-sum", pystr "yes"],
         gmxCmd [pystr "energy", pystr "-f", pystr "chain_" ++ c ++ pystr "_sp.edr",
            pystr "-sum", pystr "yes"]])
    else [])

/-- `DataGenerator.coulomb_lj` (lines 431-505): asserts
`self.minimized == True` (line 435) before any work; on success, the
commands run in every conformer directory. -/
def coulomb_lj (st : GenState) : Except PyStr (List Cmd) :=
  if st.minimized then .ok (st.wdlist.flatMap (fun _ => coulombLjCmds st))
  else .error ERRORSTR

/-- `DataGenerator.area` (lines 508-528): asserts `self.minimized ==
True` (line 514), then runs `gmx sasa` per directory, with the
index-group options added in affinity mode. -/
def area (st : GenState) : Except PyStr (List Cmd) :=
  if st.minimized then
    .ok (st.wdlist.flatMap (fun _ =>
      if st.mode = pystr "affinity" then
        [gmxCmd [pystr "sasa", pystr "-s", pystr "confout.gro", pystr "-n",
          pystr "index.ndx", pystr "-output", pystr "10", pystr "11"]]
      else [gmxCmd [pystr "sasa", pystr "-s", pystr "confout.gro"]]))
  else .error ERRORSTR

/-- The `trjcat`/`covar`/`anaeig` commands `schlitter` runs for one
ensemble directory (lines 536-550). -/
def schlitterCmds (st : GenState) (n : ℕ) (en : PyStr) : List Cmd :=
  [gmxCmd ((pystr "trjcat" :: pystr "-cat" :: pystr "yes" :: pystr "-f" :: []) ++
      (List.range n).map (fun k =>
        st.maindir ++ pystr "/" ++ en ++ pystr "/" ++ natRepr (k + 1) ++ pystr "/traj.trr")),
   gmxCmd ((pystr "covar" :: pystr "-f" :: pystr "trajout.xtc" :: pystr "-nofit" ::
      pystr "-nopbc" :: pystr "-s" :: []) ++
      [st.maindir ++ pystr "/" ++ en ++ pystr "/1/confout.gro"]),
   gmxCmd [pystr "anaeig", pystr "-v", pystr "eigenvec.trr", pystr "-entropy"]]

/-- `DataGenerator.schlitter` (lines 531-552): asserts `self.minimized
== True` (line 535) before any work; the ensemble list
`unpack([self.__repr__(), list(self.mut_df.index)])` is the wildtype
name followed by the mutation keys (the `!= None` filter only concerns
the `GXG` subclass, whose `__repr__` is `None`). -/
def schlitter (st : GenState) : Except PyStr (List Cmd) :=
  if st.minimized then
    match lenDG st with
    | none => .error (pystr "'-n' is not in list")
    | some z => .ok ((st.name :: st.mutKeys).flatMap (schlitterCmds st z.toNat))
  else .error ERRORSTR

/-- `DataGenerator.solvation_energy` (lines 385-428): its `assert
self.minimized == True` is commented out (line 393), so the method
always proceeds: per conformer directory it rewrites `gropbe.txt` and
runs `gropbe`, plus one `gropbe` run per chain in affinity mode. -/
def solvation_energy (st : GenState) : Except PyStr (List Cmd) :=
  .ok (st.wdlist.flatMap (fun _ =>
    [pystr "gropbe", pystr "gropbe.txt"] ::
      (if st.mode = pystr "affinity" then
        st.chains.map (fun _ => [pystr "gropbe", pystr "gropbe.txt"])
      else [])))

/-! ### The `DataCollector` (CCPBSA.py lines 582-868) -/

/-- Strip leading and trailing whitespace (`float()` tolerates it). -/
def pyStrip (s : PyStr) : PyStr :=
  ((s.dropWhile Char.isWhitespace).reverse.dropWhile Char.isWhitespace).reverse

/-- Unsigned decimal literal with an optional fraction part, as an exact
rational (`float()` on such literals; exponent notation is outside the
modelled fragment). -/
def pyFloatCore (s : PyStr) : Option ℚ :=
  match pySplit '.' s with
  | [ip] => (digitsVal ip).map (fun n => (n : ℚ))
  | [ip, fp] =>
    if ip.all Char.isDigit ∧ fp.all Char.isDigit ∧ (ip ≠ [] ∨ fp ≠ []) then
      some ((decNat ip : ℚ) + (decNat fp : ℚ) / (10 : ℚ) ^ fp.length)
    else none
  | _ => none

/-- Python `float()`: optional sign around `pyFloatCore`, ignoring
surrounding whitespace; `none` models `ValueError`. -/
def pyFloat (s0 : PyStr) : Option ℚ :=
  match pyStrip s0 with
  | '-' :: r => (pyFloatCore r).map Neg.neg
  | '+' :: r => pyFloatCore r
  | r => pyFloatCore r

/-- Does `pat` lead the string? (helper for substring search). -/
def leadsWith : PyStr → PyStr → Bool
  | [], _ => true
  | _ :: _, [] => false
  | p :: ps, c :: cs => p = c && leadsWith ps cs

/-- `str.index(pat)` / the `in` operator: first index at which `pat`
occurs as a substring, `none` when absent. -/
def pyFind (pat : PyStr) : PyStr → Option ℕ
  | [] => if leadsWith pat [] then some 0 else none
  | c :: cs => if leadsWith pat (c :: cs) then some 0 else (pyFind pat cs).map (· + 1)

/-- Python `pat in s`. -/
def pyContains (s pat : PyStr) : Bool := (pyFind pat s).isSome

/-- One row of the stability energy table `self.G` (columns `SOLV`,
`COUL`, `LJ`, `SAS`, `-TS`; lines 605-609). -/
structure ERow where
  solv : ℚ
  coul : ℚ
  lj : ℚ
  sas : ℚ
  mts : ℚ
  deriving Repr, DecidableEq

/-- The zero-initialised row (`pd.DataFrame(0.0, ...)`). -/
def ERow.zero : ERow := ⟨0, 0, 0, 0, 0⟩

/-- `self.G -= x` on one row: pandas subtracts the scalar from every
cell. -/
def ERow.subAll (r : ERow) (x : ℚ) : ERow :=
  ⟨r.solv - x, r.coul - x, r.lj - x, r.sas - x, r.mts - x⟩

/-- One row of the `self.ddG` table (columns `CALC`, `SOLV`, `COUL`,
`LJ`, `SAS`, `-TS`; lines 614-617). -/
structure DdRow where
  calcE : ℚ
  solv : ℚ
  coul : ℚ
  lj : ℚ
  sas : ℚ
  mts : ℚ
  deriving Repr, DecidableEq

/-- The zero-initialised `ddG` row. -/
def DdRow.zero : DdRow := ⟨0, 0, 0, 0, 0, 0⟩

/-- The state of a stability-mode `DataCollector` (lines 593-617): the
ensemble size `n`, the mode string, the energy table `G` (first row =
wildtype) and the difference table `ddG` (one row per mutation key).
In affinity mode the real `G` has columns `SOLV, COUL, LJ, PPIS, PKA`;
the claims under study are settled in stability mode, so the stability
column set is used throughout. -/
structure CollectorState where
  n : ℕ
  mode : PyStr
  G : List (PyStr × ERow)
  ddG : List (PyStr × DdRow)
  deriving Repr, DecidableEq

/-- `DataCollector.__init__` from a generator state: `n = len(data_obj)`
and zero-filled tables indexed by the wildtype name followed by the
mutation keys (`ddG` by the mutation keys only). -/
def mkCollector (g : GenState) : Option CollectorState :=
  (lenDG g).map (fun z =>
    { n := z.toNat
      mode := g.mode
      G := (g.name :: g.mutKeys).map (fun k => (k, ERow.zero))
      ddG := g.mutKeys.map (fun k => (k, DdRow.zero)) })

/-- `float(i.split()[1])` on one `tail` output line of an `lj.log` file
(line 641). -/
def ljLineVal (l : PyStr) : Option ℚ := ((pyWords l).get? 1).bind pyFloat

/-- `float(i[:i.index('kJ')].split("y")[1])` on one `chain_*_lj.log`
line (line 649). -/
def chainLineVal (l : PyStr) : Option ℚ := do
  let p ← pyFind (pystr "kJ") l
  let seg ← (pySplit 'y' (l.take p)).get? 1
  pyFloat seg

/-- `np.array(parsed).mean()`; the empty case yields numpy's `NaN`,
modelled as absence of a numeric result. -/
def pyMean (l : List ℚ) : Option ℚ :=
  if l = [] then none else some (l.sum / l.length)

/-- Lift an optional value into `Except` with the given error. -/
def toExc {α : Type} (e : PyStr) : Option α → Except PyStr α
  | none => .error e
  | some a => .ok a

/-- Set one labelled row of the energy table (pandas label assignment:
all rows carrying the label are updated). -/
def setCell (g : ERow → ERow) (t : List (PyStr × ERow)) (k : PyStr) :
    List (PyStr × ERow) :=
  t.map (fun kr => if kr.1 = k then (kr.1, g kr.2) else kr)

/-- `DataCollector.search_lj` (lines 632-653).  `fslj d` is the list of
lines `tail -q -n 1 */lj.log` prints in variant directory `d` (one last
line per conformer log actually found), `fsch d` the same for
`*/chain_*_lj.log`.  Per variant row: parse the second whitespace token
of each non-empty line and store the mean in the `LJ` cell; in affinity
mode the chain values replace `parsed`, their sum is first subtracted
from the whole table, and the `LJ` cell receives their mean. -/
def search_lj (fslj fsch : PyStr → List PyStr) (st : CollectorState) :
    Except PyStr CollectorState := do
  let G' ← excFoldlM (fun t k => do
      let vs ← toExc (pystr "could not convert string to float")
        (optMapM ljLineVal ((fslj k).filter (· ≠ [])))
      if st.mode = pystr "affinity" then do
        let cls := (fsch k).filter (fun l => pyContains l (pystr "kJ/mol"))
        let cvs ← toExc (pystr "could not convert string to float")
          (optMapM chainLineVal cls)
        let t2 := t.map (fun kr => (kr.1, kr.2.subAll cvs.sum))
        let m ← toExc (pystr "mean of empty slice") (pyMean cvs)
        pure (setCell (fun r => { r with lj := m }) t2 k)
      else do
        let m ← toExc (pystr "mean of empty slice") (pyMean vs)
        pure (setCell (fun r => { r with lj := m }) t k))
    st.G (st.G.map Prod.fst)
  pure { st with G := G' }

/-- The slice `entropy[entropy.index('is ')+3 : entropy.index(' J/mol K')]`
of the first `entropy.log` line, converted by `float` (lines 764-768,
before the `/1000` scaling). -/
def entropyRaw (line : PyStr) : Option ℚ := do
  let p ← pyFind (pystr "is ") line
  let q ← pyFind (pystr " J/mol K") line
  pyFloat (pySlice line (p + 3) q)

/-- The fixed temperature 298.15 K of `search_entropy` (line 769). -/
def tempK : ℚ := 29815 / 100

/-- `DataCollector.search_entropy` (lines 756-770).  `fs d` is the first
line of `entropy.log` in variant directory `d`; the parsed J/(mol K)
value is divided by 1000 and scaled by `-298.15` into the `-TS` cell. -/
def search_entropy (fs : PyStr → PyStr) (st : CollectorState) :
    Except PyStr CollectorState := do
  let G' ← excFoldlM (fun t k => do
      let v ← toExc (pystr "substring not found") (entropyRaw (fs k))
      pure (setCell (fun r => { r with mts := -tempK * (v / 1000) }) t k))
    st.G (st.G.map Prod.fst)
  pure { st with G := G' }

/-- pandas label lookup in a keyed table (first matching row). -/
def lookupRow (t : List (PyStr × ERow)) (k : PyStr) : Option ERow :=
  (t.find? (fun p => p.1 = k)).map Prod.snd

/-- `i.split('_')[-1][-1]` — the LAST letter of the variant key, i.e.
the mutation target; the source binds it to `aa_wt` (line 843). -/
def motifLast (i : PyStr) : Option Char := do
  let lastP ← (pySplit '_' i).getLast?
  lastP.getLast?

/-- `i.split('_')[-1][0]` — the FIRST letter of the variant key, i.e.
the original residue; the source binds it to `aa_mut` (line 844). -/
def motifFirst (i : PyStr) : Option Char := do
  let lastP ← (pySplit '_' i).getLast?
  lastP.head?

/-- `DataCollector.ddstability` (lines 835-868).  For each `ddG` row
`i`: with `aa_wt = "G" + i.split('_')[-1][-1] + "G"` (motif of the
mutation target) and `aa_mut = "G" + i.split('_')[-1][0] + "G"` (motif
of the original residue), each term column is
`coeff * (G[T][i] - G[T][0] - gxg[T][aa_mut] + gxg[T][aa_wt])` and
`CALC` is the sum of the five terms.  Missing keys model pandas
`KeyError`/`IndexError`. -/
def ddRowOf (gxg : List (PyStr × ERow)) (alpha beta gamma tau : ℚ)
    (G : List (PyStr × ERow)) (gWt : ERow) (i : PyStr) :
    Except PyStr (PyStr × DdRow) := do
  let cW ← toExc (pystr "string index out of range") (motifLast i)
  let cM ← toExc (pystr "string index out of range") (motifFirst i)
  let aaWt : PyStr := ['G', cW, 'G']
  let aaMut : PyStr := ['G', cM, 'G']
  let gI ← toExc (pystr "KeyError") (lookupRow G i)
  let gm ← toExc (pystr "KeyError") (lookupRow gxg aaMut)
  let gw ← toExc (pystr "KeyError") (lookupRow gxg aaWt)
  let solv := alpha * (gI.solv - gWt.solv - gm.solv + gw.solv)
  let coul := alpha * (gI.coul - gWt.coul - gm.coul + gw.coul)
  let lj := beta * (gI.lj - gWt.lj - gm.lj + gw.lj)
  let sas := gamma * (gI.sas - gWt.sas - gm.sas + gw.sas)
  let mts := tau * (gI.mts - gWt.mts - gm.mts + gw.mts)
  pure (i, DdRow.mk (solv + coul + lj + sas + mts) solv coul lj sas mts)

/-- See the doc comment above `ddRowOf`: the loop over `self.ddG.index`
(lines 842-866), followed by the assignment of the recomputed table. -/
def ddstability (gxg : List (PyStr × ERow)) (alpha beta gamma tau : ℚ)
    (st : CollectorState) : Except PyStr CollectorState := do
  let gWt ← toExc (pystr "index 0 out of bounds") ((st.G.head?).map Prod.snd)
  let rows ← excMapM (fun kr => ddRowOf gxg alpha beta gamma tau st.G gWt kr.1) st.ddG
  pure { st with ddG := rows }

/-! ### The in-place `topol.top` comment/revert rewrite
(`DataGenerator.minimize` lines 358-378 and `DataGenerator.coulomb_lj`
lines 466-503, identical code). -/

/-- Python list indexing with support for negative indices
(`IndexError` as `none`). -/
def pyGetIdx {α : Type} (l : List α) (i : ℤ) : Option α :=
  if 0 ≤ i then l.get? i.toNat
  else if 0 ≤ i + l.length then l.get? (i + l.length).toNat
  else none

/-- The slice assignment `l[-n:] = [f(t) for t in l[-n:]]`. -/
def pyReplaceTail {α : Type} (l : List α) (n : ℕ) (f : α → α) : List α :=
  if n = 0 then l.map f
  else l.take (l.length - n) ++ (l.drop (l.length - n)).map f

/-- The slice `l[-n:]` (for stating properties of the trailing lines). -/
def pyTail {α : Type} (l : List α) (n : ℕ) : List α :=
  if n = 0 then l else l.drop (l.length - n)

/-- The comment step: with `topline = cn - nch` and
`sel = l[topline]`, replace the trailing `nch` lines by
`';' + line if line != sel else line` (lines 362-364 / 469-471). -/
def commentChains (l : List PyStr) (nch cn : ℕ) : Option (List PyStr) :=
  (pyGetIdx l ((cn : ℤ) - nch)).map (fun sel =>
    pyReplaceTail l nch (fun t => if t ≠ sel then ';' :: t else t))

/-- The revert step on the rewritten list: `line[1:] if line != l[topline]
else line` over the trailing `nch` lines (lines 374-375 / 499-500). -/
def revertChains (l : List PyStr) (nch cn : ℕ) : Option (List PyStr) :=
  (pyGetIdx l ((cn : ℤ) - nch)).map (fun sel =>
    pyReplaceTail l nch (fun t => if t ≠ sel then t.drop 1 else t))

/-- One comment-then-revert round trip of the topology file lines. -/
def commentThenRevert (l : List PyStr) (nch cn : ℕ) : Option (List PyStr) :=
  (commentChains l nch cn).bind (fun l2 => revertChains l2 nch cn)

/-! ## General lemmas -/

/-- `pySplit` never returns the empty list. -/
theorem pySplit_ne_nil (sep : Char) (s : PyStr) : pySplit sep s ≠ [] := by
  cases s with
  | nil => simp [pySplit]
  | cons c cs =>
    simp only [pySplit]
    cases h : pySplit sep cs with
    | nil => simp
    | cons p ps =>
      by_cases hc : c = sep <;> simp [hc]

/-- A fold of per-key `setCell` updates over distinct keys succeeds and
updates each key's rows pointwise. -/
theorem excFoldlM_setCell_ok
    (step : List (PyStr × ERow) → PyStr → Except PyStr (List (PyStr × ERow)))
    (upd : PyStr → ERow → ERow) :
    ∀ (ks : List PyStr) (t : List (PyStr × ERow)),
      ks.Nodup →
      (∀ t' k, k ∈ ks → step t' k = .ok (setCell (upd k) t' k)) →
      excFoldlM step t ks =
        .ok (t.map (fun kr => if kr.1 ∈ ks then (kr.1, upd kr.1 kr.2) else kr)) := by
  intro ks
  induction ks with
  | nil =>
    intro t _ _
    simp [excFoldlM]
  | cons k ks ih =>
    intro t hnd hstep
    have hk : k ∉ ks := (List.nodup_cons.mp hnd).1
    have h1 := hstep t k (List.mem_cons_self k ks)
    simp only [excFoldlM, h1]
    rw [ih (setCell (upd k) t k) (List.nodup_cons.mp hnd).2
      (fun t' k' hk' => hstep t' k' (List.mem_cons_of_mem _ hk'))]
    congr 1
    rw [setCell, List.map_map]
    apply List.map_congr_left
    intro kr _
    by_cases h2 : kr.1 = k
    · have h3 : kr.1 ∉ ks := by rw [h2]; exact hk
      simp [Function.comp, h2, h3, hk, List.mem_cons]
    · by_cases h4 : kr.1 ∈ ks <;> simp [Function.comp, h2, h4]

/-! ## Claim C1 -/

/-- C1: the claim states that in stability mode `ddstability` sets each
term column to
`coeff * (G[T][i] - G[T][ref] - gxg[T]["G<new>G"] + gxg[T]["G<orig>G"])`.
The code instead binds `aa_wt` to the motif of the LAST key letter (the
mutation target `<new>`) and `aa_mut` to the motif of the FIRST key
letter (the original residue `<orig>`), so it computes
`coeff * (G[T][i] - G[T][ref] - gxg[T]["G<orig>G"] + gxg[T]["G<new>G"])`:
the sign of the baseline difference is flipped relative to the claim
(and to the intent visible in the source's own variable names).  At the
key `"A20G"` with `gxg.SOLV["GAG"] = 3` and `gxg.SOLV["GGG"] = 5` the
code yields `SOLV = 1 * (20 - 10 - 3 + 5) = 12`, whereas the claimed
formula gives `1 * (20 - 10 - 5 + 3) = 8`; the `CALC` column is the sum
of the five terms as claimed. -/
theorem ddstability_gxg_motif_eval :
    ddstability [(pystr "GAG", ⟨3, 0, 0, 0, 0⟩), (pystr "GGG", ⟨5, 0, 0, 0, 0⟩)] 1 1 1 1
      ⟨5, pystr "stability",
        [(pystr "1stn", ⟨10, 0, 0, 0, 0⟩), (pystr "A20G", ⟨20, 0, 0, 0, 0⟩)],
        [(pystr "A20G", DdRow.zero)]⟩
      = .ok ⟨5, pystr "stability",
        [(pystr "1stn", ⟨10, 0, 0, 0, 0⟩), (pystr "A20G", ⟨20, 0, 0, 0, 0⟩)],
        [(pystr "A20G", ⟨12, 12, 0, 0, 0, 0⟩)]⟩
    ∧ (12 : ℚ) = 1 * (20 - 10 - 3 + 5)
    ∧ (12 : ℚ) ≠ 1 * (20 - 10 - 5 + 3) := by
  refine ⟨?_, by norm_num, by norm_num⟩
  simp +decide [ddstability, ddRowOf, excMapM, toExc, lookupRow, motifLast, motifFirst,
    pySplit, pystr, Except.bind, bind, List.find?, Option.bind, pure, Except.pure]
  norm_num

/-! ## Claim C5 -/

/-- A generator state whose `minimized` flag is `False`. -/
def c5state : GenState :=
  ⟨[], [pystr "-n", pystr "2"], [], [], [], [],
   pystr "energy.mdp", pystr "min.mdp", pystr "table.xvg", pystr "params.txt",
   pystr "stability", false, [pystr "A"], pystr "1stn", [pystr "A20G"],
   pystr "/m", [pystr "/m/1stn/1"]⟩

/-- C5 (counterexample): the claim asserts that `solvation_energy`, like
the other post-minimization stages, fails on an unconditional
`minimized` assertion when the flag is `False`.  Its assertion is
commented out in the source (line 393), so with `minimized = False` it
proceeds and performs its work (here: one `gropbe` invocation) instead
of aborting. -/
theorem solvation_energy_no_assert_cex :
    c5state.minimized = false
    ∧ solvation_energy c5state = .ok [[pystr "gropbe", pystr "gropbe.txt"]]
    ∧ ([[pystr "gropbe", pystr "gropbe.txt"]] : List Cmd) ≠ [] := by
  decide

/-- C5 (amended): every evaluation stage among `coulomb_lj`, `area` and
`schlitter` enforces its minimization precondition by an unconditional
assertion on the `minimized` flag, failing hard with the assertion
message before doing any work when the flag is `False`; the fourth
stage, `solvation_energy`, has its assertion commented out and proceeds
unconditionally. -/
theorem minimized_assertion_gating (st : GenState) (h : st.minimized = false) :
    coulomb_lj st = .error ERRORSTR ∧ area st = .error ERRORSTR ∧
    schlitter st = .error ERRORSTR ∧ ∃ cmds, solvation_energy st = .ok cmds := by
  refine ⟨?_, ?_, ?_, ⟨_, rfl⟩⟩ <;> simp [coulomb_lj, area, schlitter, h]

/-- Witness for `minimized_assertion_gating` at a concrete state. -/
theorem minimized_assertion_gating_witness :
    c5state.minimized = false ∧
      (coulomb_lj c5state = .error ERRORSTR ∧ area c5state = .error ERRORSTR ∧
       schlitter c5state = .error ERRORSTR ∧
       ∃ cmds, solvation_energy c5state = .ok cmds) :=
  ⟨rfl, minimized_assertion_gating c5state rfl⟩

/-! ## Claim C9 -/

/-- C9: for every variant row, `search_entropy` stores
`-298.15 * (v / 1000)` in the `-TS` cell, where `v` is the value parsed
from between `'is '` and `' J/mol K'` on the first line of the variant's
`entropy.log` (`entropyRaw`): the parsed J/(mol K) value is divided by
1000 and scaled by the fixed temperature constant 298.15 with a negative
sign. -/
theorem search_entropy_scaling (fs : PyStr → PyStr) (st : CollectorState)
    (vmap : PyStr → ℚ)
    (hnd : (st.G.map Prod.fst).Nodup)
    (hv : ∀ k ∈ st.G.map Prod.fst, entropyRaw (fs k) = some (vmap k)) :
    search_entropy fs st = .ok { st with G := st.G.map (fun kr =>
      (kr.1, { kr.2 with mts := -(29815 / 100 : ℚ) * (vmap kr.1 / 1000) })) } := by
  have hstep : ∀ (t' : List (PyStr × ERow)) (k : PyStr), k ∈ st.G.map Prod.fst →
      (do
        let v ← toExc (pystr "substring not found") (entropyRaw (fs k))
        pure (setCell (fun r => { r with mts := -tempK * (v / 1000) }) t' k) :
          Except PyStr (List (PyStr × ERow)))
      = .ok (setCell (fun r =>
          { r with mts := -(29815 / 100 : ℚ) * (vmap k / 1000) }) t' k) := by
    intro t' k hk
    simp [hv k hk, toExc, bind, Except.bind, pure, Except.pure, tempK]
  unfold search_entropy
  rw [excFoldlM_setCell_ok _
    (fun k r => { r with mts := -(29815 / 100 : ℚ) * (vmap k / 1000) })
    (st.G.map Prod.fst) st.G hnd hstep]
  simp only [bind, Except.bind, pure, Except.pure]
  congr 2
  apply List.map_congr_left
  intro kr hkr
  rw [if_pos (List.mem_map_of_mem Prod.fst hkr)]

/-- Witness for `search_entropy_scaling`: a 2000 J/(mol K) entropy line
yields `-TS = -298.15 * 2 = -596.3`. -/
theorem search_entropy_scaling_witness :
    entropyRaw (pystr "The Entropy is 2000.0 J/mol K.") = some 2000
    ∧ search_entropy (fun _ => pystr "The Entropy is 2000.0 J/mol K.")
        ⟨5, pystr "stability", [(pystr "1stn", ERow.zero)], []⟩
      = .ok ⟨5, pystr "stability",
          [(pystr "1stn", ⟨0, 0, 0, 0, -5963 / 10⟩)], []⟩ := by
  have hv : entropyRaw (pystr "The Entropy is 2000.0 J/mol K.") = some 2000 := by
    simp +decide [entropyRaw, pyFind, leadsWith, pyFloat, pyStrip, pyFloatCore,
      pySplit, digitsVal, decNat, pySlice, pystr, Option.bind]
  refine ⟨hv, ?_⟩
  rw [search_entropy_scaling (fun _ => pystr "The Entropy is 2000.0 J/mol K.")
    ⟨5, pystr "stability", [(pystr "1stn", ERow.zero)], []⟩ (fun _ => 2000)
    (by decide) (by intro k _; exact hv)]
  simp [ERow.zero]
  norm_num

/-! ## Claim C7 -/

/-- C7 (counterexample): in affinity mode, `search_lj` does not set the
`LJ` cell to the mean of the `lj.log` values: the chain-log values
replace `parsed` (their mean, here `5`, is stored), and their sum is
first subtracted from every cell of the whole table, while the found
`lj.log` value `-120.0` (mean `-120`) is discarded. -/
theorem search_lj_affinity_cex :
    search_lj (fun _ => [pystr "x -120.0"])
        (fun _ => [pystr "energy 4.0 kJ/mol", pystr "energy 6.0 kJ/mol"])
        ⟨5, pystr "affinity", [(pystr "1stn", ERow.zero)], []⟩
      = .ok ⟨5, pystr "affinity", [(pystr "1stn", ⟨-10, -10, 5, -10, -10⟩)], []⟩
    ∧ optMapM ljLineVal [pystr "x -120.0"] = some [-120]
    ∧ pyMean [(-120 : ℚ)] = some (-120)
    ∧ (5 : ℚ) ≠ -120 := by
  refine ⟨?_, ?_, ?_, by norm_num⟩
  · simp +decide [search_lj, excFoldlM, optMapM, ljLineVal, chainLineVal, pyWords,
      pyFloat, pyStrip, pyFloatCore, pySplit, digitsVal, decNat, pystr, toExc,
      pyContains, pyFind, leadsWith, pyMean, setCell, ERow.subAll, ERow.zero,
      bind, Except.bind, pure, Except.pure, Option.bind, List.sum_cons, List.sum_nil]
    norm_num
  · simp +decide [optMapM, ljLineVal, pyWords, pyFloat, pyStrip, pyFloatCore,
      pySplit, digitsVal, decNat, pystr, Option.bind]
  · norm_num [pyMean, List.sum_cons, List.sum_nil]

/-- C7 (amended): in stability mode (`self.mode != 'affinity'`), for
every variant row `search_lj` stores in the `LJ` cell the arithmetic
mean of the values parsed (second whitespace token, as a float) from the
last line of each conformer `lj.log` actually found; nothing relates the
number of found logs to the configured ensemble size `st.n`, so fewer
logs than `n` raise no error and the mean runs over the found values. -/
theorem search_lj_stability_mean (fslj fsch : PyStr → List PyStr)
    (st : CollectorState) (vmap : PyStr → List ℚ)
    (hmode : ¬ st.mode = pystr "affinity")
    (hnd : (st.G.map Prod.fst).Nodup)
    (hv : ∀ k ∈ st.G.map Prod.fst,
      optMapM ljLineVal ((fslj k).filter (· ≠ [])) = some (vmap k))
    (hne : ∀ k ∈ st.G.map Prod.fst, vmap k ≠ []) :
    search_lj fslj fsch st = .ok { st with G := st.G.map (fun kr =>
      (kr.1, { kr.2 with lj := (vmap kr.1).sum / (vmap kr.1).length })) } := by
  have hstep : ∀ (t' : List (PyStr × ERow)) (k : PyStr), k ∈ st.G.map Prod.fst →
      (do
        let vs ← toExc (pystr "could not convert string to float")
          (optMapM ljLineVal ((fslj k).filter (· ≠ [])))
        if st.mode = pystr "affinity" then do
          let cls := (fsch k).filter (fun l => pyContains l (pystr "kJ/mol"))
          let cvs ← toExc (pystr "could not convert string to float")
            (optMapM chainLineVal cls)
          let t2 := t'.map (fun kr => (kr.1, kr.2.subAll cvs.sum))
          let m ← toExc (pystr "mean of empty slice") (pyMean cvs)
          pure (setCell (fun r => { r with lj := m }) t2 k)
        else do
          let m ← toExc (pystr "mean of empty slice") (pyMean vs)
          pure (setCell (fun r => { r with lj := m }) t' k) :
            Except PyStr (List (PyStr × ERow)))
      = .ok (setCell (fun r =>
          { r with lj := (vmap k).sum / (vmap k).length }) t' k) := by
    intro t' k hk
    have hv' := hv k hk
    simp only [ne_eq, decide_not] at hv'
    simp [hv', hmode, hne k hk, pyMean, toExc, bind, Except.bind, pure, Except.pure]
  unfold search_lj
  rw [excFoldlM_setCell_ok _
    (fun k r => { r with lj := (vmap k).sum / (vmap k).length })
    (st.G.map Prod.fst) st.G hnd hstep]
  simp only [bind, Except.bind, pure, Except.pure]
  congr 2
  apply List.map_congr_left
  intro kr hkr
  rw [if_pos (List.mem_map_of_mem Prod.fst hkr)]

/-- Witness for `search_lj_stability_mean`: three conformer logs with
values `-120.0`, `-118.5`, `-121.2` (fewer than the configured ensemble
size 5) yield the mean `-119.9` with no error. -/
theorem search_lj_stability_mean_witness :
    optMapM ljLineVal
        ([pystr "LJ-SR  -120.0", pystr "LJ-SR  -118.5", pystr "LJ-SR  -121.2"].filter
          (· ≠ []))
      = some [-120, -237 / 2, -606 / 5]
    ∧ ([pystr "LJ-SR  -120.0", pystr "LJ-SR  -118.5", pystr "LJ-SR  -121.2"].length < 5)
    ∧ search_lj
        (fun _ => [pystr "LJ-SR  -120.0", pystr "LJ-SR  -118.5", pystr "LJ-SR  -121.2"])
        (fun _ => [])
        ⟨5, pystr "stability", [(pystr "1stn", ERow.zero)], []⟩
      = .ok ⟨5, pystr "stability", [(pystr "1stn", ⟨0, 0, -1199 / 10, 0, 0⟩)], []⟩ := by
  have hv : optMapM ljLineVal
      ([pystr "LJ-SR  -120.0", pystr "LJ-SR  -118.5", pystr "LJ-SR  -121.2"].filter
        (· ≠ []))
      = some [-120, -237 / 2, -606 / 5] := by
    simp +decide [optMapM, ljLineVal, pyWords, pyFloat, pyStrip, pyFloatCore,
      pySplit, digitsVal, decNat, pystr, Option.bind]
    norm_num
  refine ⟨hv, by norm_num, ?_⟩
  rw [search_lj_stability_mean
    (fun _ => [pystr "LJ-SR  -120.0", pystr "LJ-SR  -118.5", pystr "LJ-SR  -121.2"])
    (fun _ => [])
    ⟨5, pystr "stability", [(pystr "1stn", ERow.zero)], []⟩
    (fun _ => [-120, -237 / 2, -606 / 5])
    (by decide) (by decide) (by intro k _; exact hv) (by intro k _; simp)]
  simp [ERow.zero, List.sum_cons, List.sum_nil]
  norm_num

/-! ## Claim C8 -/

/-- `excMapM` of a function that only depends on the key coincides on
tables with the same key sequence. -/
theorem excMapM_key_only (f : PyStr → Except PyStr (PyStr × DdRow)) :
    ∀ (l l' : List (PyStr × DdRow)), l.map Prod.fst = l'.map Prod.fst →
      excMapM (fun kr => f kr.1) l = excMapM (fun kr => f kr.1) l' := by
  intro l
  induction l with
  | nil =>
    intro l' h
    cases l' with
    | nil => rfl
    | cons b l'' => simp at h
  | cons a l ih =>
    intro l' h
    cases l' with
    | nil => simp at h
    | cons b l'' =>
      simp only [List.map_cons, List.cons.injEq] at h
      simp only [excMapM, h.1, ih l'' h.2]

/-- `excMapM` of a key-preserving row function preserves the key
sequence. -/
theorem excMapM_keys (f : PyStr → Except PyStr (PyStr × DdRow))
    (hf : ∀ i r, f i = .ok r → r.1 = i) :
    ∀ (l : List (PyStr × DdRow)) (rows : List (PyStr × DdRow)),
      excMapM (fun kr => f kr.1) l = .ok rows →
      rows.map Prod.fst = l.map Prod.fst := by
  intro l
  induction l with
  | nil =>
    intro rows h
    simp only [excMapM] at h
    injection h with h2
    rw [← h2]
  | cons a l ih =>
    intro rows h
    simp only [excMapM] at h
    cases h1 : f a.1 with
    | error e => rw [h1] at h; cases h
    | ok b =>
      rw [h1] at h
      cases h2 : excMapM (fun kr => f kr.1) l with
      | error e => rw [h2] at h; cases h
      | ok bs =>
        rw [h2] at h
        injection h with h3
        rw [← h3]
        simp [hf a.1 b h1, ih bs h2]

/-- `ddRowOf` returns a row labelled by its input key. -/
theorem ddRowOf_fst (gxg : List (PyStr × ERow)) (alpha beta gamma tau : ℚ)
    (G : List (PyStr × ERow)) (gWt : ERow) (i : PyStr) (r : PyStr × DdRow)
    (h : ddRowOf gxg alpha beta gamma tau G gWt i = .ok r) : r.1 = i := by
  simp only [ddRowOf, bind, Except.bind, pure, Except.pure] at h
  repeat' split at h
  all_goals cases h
  all_goals rfl

/-- C8: `ddstability` is pure in `(G, ddG keys, gxg, coefficients)` and
idempotent.  If it succeeds on `st1`, it succeeds on any state with the
same energy table `G` and the same `ddG` key sequence, producing the
same `ddG` table (determinism: the prior `ddG` VALUES are irrelevant),
and re-running it on its own output reproduces that output exactly
(idempotence). -/
theorem ddstability_deterministic_idempotent (gxg : List (PyStr × ERow))
    (alpha beta gamma tau : ℚ) (st1 st2 st' : CollectorState)
    (hG : st1.G = st2.G) (hdd : st1.ddG.map Prod.fst = st2.ddG.map Prod.fst)
    (h1 : ddstability gxg alpha beta gamma tau st1 = .ok st') :
    (∃ st'', ddstability gxg alpha beta gamma tau st2 = .ok st''
      ∧ st''.ddG = st'.ddG)
    ∧ ddstability gxg alpha beta gamma tau st' = .ok st' := by
  have hmain : ∀ (s : CollectorState) (gWt : ERow) (rows : List (PyStr × DdRow)),
      toExc (pystr "index 0 out of bounds") ((s.G.head?).map Prod.snd) = .ok gWt →
      excMapM (fun kr => ddRowOf gxg alpha beta gamma tau s.G gWt kr.1) s.ddG = .ok rows →
      ddstability gxg alpha beta gamma tau s = .ok { s with ddG := rows } := by
    intro s gWt rows hW hR
    simp only [ddstability, bind, Except.bind, pure, Except.pure, hW, hR]
  simp only [ddstability, bind, Except.bind, pure, Except.pure] at h1
  split at h1
  · cases h1
  · rename_i gWt hW
    split at h1
    · cases h1
    · rename_i rows hR
      injection h1 with h1'
      have hstG : st'.G = st1.G := by rw [← h1']
      have hstdd : st'.ddG = rows := by rw [← h1']
      have hkeys : rows.map Prod.fst = st1.ddG.map Prod.fst :=
        excMapM_keys (fun i => ddRowOf gxg alpha beta gamma tau st1.G gWt i)
          (fun i r h => ddRowOf_fst gxg alpha beta gamma tau st1.G gWt i r h)
          st1.ddG rows hR
      constructor
      · refine ⟨{ st2 with ddG := rows }, ?_, by rw [hstdd]⟩
        refine hmain st2 gWt rows ?_ ?_
        · rw [← hG]; exact hW
        · have hGeq : st2.G = st1.G := hG.symm
          rw [hGeq]
          rw [excMapM_key_only
            (fun i => ddRowOf gxg alpha beta gamma tau st1.G gWt i) st2.ddG st1.ddG hdd.symm]
          exact hR
      · have e1 : toExc (pystr "index 0 out of bounds")
            ((st'.G.head?).map Prod.snd) = .ok gWt := by rw [hstG]; exact hW
        have e2 : excMapM
            (fun kr => ddRowOf gxg alpha beta gamma tau st'.G gWt kr.1) st'.ddG
            = .ok rows := by
          rw [hstG]
          rw [excMapM_key_only
            (fun i => ddRowOf gxg alpha beta gamma tau st1.G gWt i) st'.ddG st1.ddG
            (by rw [hstdd]; exact hkeys)]
          exact hR
        have h3 := hmain st' gWt rows e1 e2
        rw [h3, ← hstdd]

/-- Witness for `ddstability_deterministic_idempotent` at concrete
tables (coefficients 2, 3, 4, 5; each term of the single mutant row
evaluates to `coeff * ((2 - 1) - 1 + 2) = 2 * coeff`). -/
theorem ddstability_deterministic_idempotent_witness :
    ddstability [(pystr "GAG", ⟨1, 1, 1, 1, 1⟩), (pystr "GGG", ⟨2, 2, 2, 2, 2⟩)] 2 3 4 5
      ⟨7, pystr "stability",
        [(pystr "1stn", ⟨1, 2, 3, 4, 5⟩), (pystr "A20G", ⟨2, 3, 4, 5, 6⟩)],
        [(pystr "A20G", DdRow.zero)]⟩
      = .ok ⟨7, pystr "stability",
        [(pystr "1stn", ⟨1, 2, 3, 4, 5⟩), (pystr "A20G", ⟨2, 3, 4, 5, 6⟩)],
        [(pystr "A20G", ⟨32, 4, 4, 6, 8, 10⟩)]⟩
    ∧ ((∃ st'', ddstability [(pystr "GAG", ⟨1, 1, 1, 1, 1⟩), (pystr "GGG", ⟨2, 2, 2, 2, 2⟩)] 2 3 4 5
          ⟨7, pystr "stability",
            [(pystr "1stn", ⟨1, 2, 3, 4, 5⟩), (pystr "A20G", ⟨2, 3, 4, 5, 6⟩)],
            [(pystr "A20G", DdRow.zero)]⟩
          = .ok st''
        ∧ st''.ddG = [(pystr "A20G", (⟨32, 4, 4, 6, 8, 10⟩ : DdRow))])
      ∧ ddstability [(pystr "GAG", ⟨1, 1, 1, 1, 1⟩), (pystr "GGG", ⟨2, 2, 2, 2, 2⟩)] 2 3 4 5
          ⟨7, pystr "stability",
            [(pystr "1stn", ⟨1, 2, 3, 4, 5⟩), (pystr "A20G", ⟨2, 3, 4, 5, 6⟩)],
            [(pystr "A20G", ⟨32, 4, 4, 6, 8, 10⟩)]⟩
        = .ok ⟨7, pystr "stability",
            [(pystr "1stn", ⟨1, 2, 3, 4, 5⟩), (pystr "A20G", ⟨2, 3, 4, 5, 6⟩)],
            [(pystr "A20G", ⟨32, 4, 4, 6, 8, 10⟩)]⟩) := by
  have h1 : ddstability [(pystr "GAG", ⟨1, 1, 1, 1, 1⟩), (pystr "GGG", ⟨2, 2, 2, 2, 2⟩)] 2 3 4 5
      ⟨7, pystr "stability",
        [(pystr "1stn", ⟨1, 2, 3, 4, 5⟩), (pystr "A20G", ⟨2, 3, 4, 5, 6⟩)],
        [(pystr "A20G", DdRow.zero)]⟩
      = .ok ⟨7, pystr "stability",
        [(pystr "1stn", ⟨1, 2, 3, 4, 5⟩), (pystr "A20G", ⟨2, 3, 4, 5, 6⟩)],
        [(pystr "A20G", ⟨32, 4, 4, 6, 8, 10⟩)]⟩ := by
    simp +decide [ddstability, ddRowOf, excMapM, toExc, lookupRow, motifLast, motifFirst,
      pySplit, pystr, Except.bind, bind, List.find?, Option.bind, pure, Except.pure]
    norm_num
  exact ⟨h1, ddstability_deterministic_idempotent _ 2 3 4 5 _ _ _ rfl rfl h1⟩

/-! ## Claim C2 -/

/-- A decimal digit character is not an underscore. -/
theorem digit_ne_underscore (d : Char) (h : d.isDigit = true) : d ≠ '_' := by
  intro he
  rw [he] at h
  exact absurd h (by decide)

/-- A one-letter code found in the residue table is neither a digit nor
an underscore. -/
theorem aaLookup_valid (Y : Char) (tgt : PyStr) (h : aaLookup Y = some tgt) :
    Y.isDigit = false ∧ Y ≠ '_' := by
  unfold aaLookup at h
  cases hf : aa123.find? (fun p => p.1 = Y) with
  | none => rw [hf] at h; cases h
  | some p =>
    have hm := List.mem_of_find?_eq_some hf
    have hp : p.1 = Y := by
      have := List.find?_some hf
      exact of_decide_eq_true this
    have hall : ∀ q ∈ aa123, q.1.isDigit = false ∧ q.1 ≠ '_' := by decide
    rw [← hp]
    exact hall p hm

/-- C2 (counterexample): the claim says the chain is the substring
before `'_'`; the code takes only the FIRST character of the line
(`i[0] if '_' in i else ''`), so the two-character chain prefix of
`"AB_H10I"` parses to `"A"`, not `"AB"`. -/
theorem parseMutLine_chain_cex :
    (parseMutLine (pystr "AB_H10I")).map MutRec.chain = some (pystr "A")
    ∧ (pystr "AB_H10I").takeWhile (· ≠ '_') = pystr "AB"
    ∧ pystr "A" ≠ pystr "AB" := by
  decide

/-- C2 (amended): for every mutation line in the documented format with
a SINGLE-character chain prefix — `[c_]X<digits>Y` with `c` and `X`
non-digit, non-underscore characters, a non-empty digit run, and `Y` a
residue letter of the 20-entry table — `parse_mutlist` yields: chain =
`c` (equal to the substring before `'_'` exactly because the prefix has
one character) or `""` without a prefix, original residue `X` (the
character preceding the first digit, after the `'_'` when present),
position = the digit run read in base 10, and target = the three-letter
code of `Y`; in particular `"A20G"` and `"B_H10I"` parse as the claim
states. -/
theorem parseMutLine_wellformed (c : Option Char) (X : Char) (ds : PyStr) (Y : Char)
    (tgt : PyStr)
    (hc : ∀ cc, c = some cc → cc.isDigit = false ∧ cc ≠ '_')
    (hXd : X.isDigit = false) (hXu : X ≠ '_')
    (hds1 : ds ≠ []) (hds2 : ∀ d ∈ ds, d.isDigit = true)
    (hY : aaLookup Y = some tgt) :
    parseMutLine ((c.elim [] (fun cc => [cc, '_'])) ++ X :: ds ++ [Y])
      = some ⟨c.elim [] (fun cc => [cc]), X, decNat ds, tgt⟩ := by
  have hds_ne : ∀ d ∈ ds, d ≠ '_' := fun d hd => digit_ne_underscore d (hds2 d hd)
  have hY2 := aaLookup_valid Y tgt hY
  have hfil : (X :: (ds ++ [Y])).filter Char.isDigit = ds := by
    simp [List.filter_cons, List.filter_append, hXd, hY2.1, List.filter_eq_self.mpr hds2]
  have hlast : (X :: (ds ++ [Y])).getLast? = some Y := by
    rw [show X :: (ds ++ [Y]) = (X :: ds) ++ [Y] by simp]
    exact List.getLast?_concat _
  cases c with
  | none =>
    have hnu : ¬('_' ∈ X :: (ds ++ [Y])) := by
      intro hmm
      rcases List.mem_cons.mp hmm with h | h
      · exact hXu h.symm
      rcases List.mem_append.mp h with h2 | h2
      · exact hds_ne '_' h2 rfl
      · rcases List.mem_cons.mp h2 with h3 | h3
        · exact hY2.2 h3.symm
        · exact absurd h3 (List.not_mem_nil '_')
    simp only [Option.elim, List.nil_append]
    simp [parseMutLine, hnu, int_in_str, hfil, hds1, hlast, hY, Option.bind]
  | some cc =>
    have hcc := hc cc rfl
    have hmem : '_' ∈ cc :: '_' :: (X :: (ds ++ [Y])) := by simp
    have hidx : pyIdxOfChar '_' (cc :: '_' :: (X :: (ds ++ [Y]))) = some 1 := by
      simp [pyIdxOfChar, hcc.2]
    have hfil2 : (cc :: '_' :: (X :: (ds ++ [Y]))).filter Char.isDigit = ds := by
      simp [List.filter_cons, hcc.1, hfil]
    have hlast2 : (cc :: '_' :: (X :: (ds ++ [Y]))).getLast? = some Y := by
      rw [show cc :: '_' :: (X :: (ds ++ [Y])) = (cc :: '_' :: X :: ds) ++ [Y] by simp]
      exact List.getLast?_concat _
    show parseMutLine (cc :: '_' :: (X :: (ds ++ [Y]))) = _
    simp [parseMutLine, hmem, hidx, int_in_str, hfil2, hds1, hlast2, hY, Option.bind,
      Option.elim]

/-- Witness for `parseMutLine_wellformed`: the two examples of the
claim. -/
theorem parseMutLine_wellformed_witness :
    parseMutLine (pystr "B_H10I") = some ⟨pystr "B", 'H', 10, pystr "ILE"⟩
    ∧ parseMutLine (pystr "A20G") = some ⟨[], 'A', 20, pystr "GLY"⟩ := by
  constructor
  · have h := parseMutLine_wellformed (some 'B') 'H' (pystr "10") 'I' (pystr "ILE")
      (by intro cc hcc; injection hcc with h2; rw [← h2]; exact ⟨by decide, by decide⟩)
      (by decide) (by decide) (by decide) (by decide) (by decide)
    have e1 : ((some 'B' : Option Char).elim [] (fun cc => [cc, '_'])) ++
        'H' :: pystr "10" ++ ['I'] = pystr "B_H10I" := by decide
    have e2 : decNat (pystr "10") = 10 := by decide
    have e3 : (some 'B' : Option Char).elim ([] : PyStr) (fun cc => [cc]) = pystr "B" := by
      decide
    rw [e1, e2, e3] at h
    exact h
  · have h := parseMutLine_wellformed none 'A' (pystr "20") 'G' (pystr "GLY")
      (by intro cc hcc; cases hcc)
      (by decide) (by decide) (by decide) (by decide) (by decide)
    have e1 : ((none : Option Char).elim [] (fun cc => [cc, '_'])) ++
        'A' :: pystr "20" ++ ['G'] = pystr "A20G" := by decide
    have e2 : decNat (pystr "20") = 20 := by decide
    have e3 : (none : Option Char).elim ([] : PyStr) (fun cc => [cc]) = ([] : PyStr) := by
      decide
    rw [e1, e2, e3] at h
    exact h

/-! ## Claim C10 -/

/-- C10 (counterexample): the claim's proviso ("no original trailing
line equals the selected line or `';'` + the selected line") is
satisfied here — the only non-selected trailing line is `"foo"`, the
selected line (`topline = 1 - 2 = -1`) is `";foo"`, and
`"foo" ≠ ";foo"`, `"foo" ≠ ";;foo"` — yet the round trip corrupts the
list: commenting turns `"foo"` into `";foo"`, which the revert step then
mistakes for the selected line and leaves unstripped. -/
theorem topology_roundtrip_cex :
    commentThenRevert [pystr "foo", pystr ";foo"] 2 1
      = some [pystr ";foo", pystr ";foo"]
    ∧ some [pystr ";foo", pystr ";foo"] ≠ some [pystr "foo", pystr ";foo"]
    ∧ pyGetIdx [pystr "foo", pystr ";foo"] ((1 : ℤ) - 2) = some (pystr ";foo")
    ∧ (∀ t ∈ pyTail [pystr "foo", pystr ";foo"] 2,
        t = pystr ";foo" ∨ (t ≠ pystr ";foo" ∧ t ≠ ';' :: pystr ";foo")) := by
  refine ⟨by decide, by decide, by decide, ?_⟩
  decide

/-- C10 (amended): the comment-then-revert rewrite of the trailing
`nch` topology lines (chain iteration `cn` of `minimize`/`coulomb_lj`)
restores the original line list, provided no original trailing line
equals the selected line or `';'` followed by the selected line's
content, AND — the condition the counterexample shows is additionally
required — the selected line does not equal `';'` followed by a
non-selected trailing line's content. -/
theorem topology_roundtrip (l : List PyStr) (nch cn : ℕ) (sel : PyStr)
    (hcn : cn < nch) (hlen : nch ≤ l.length)
    (hsel : pyGetIdx l ((cn : ℤ) - nch) = some sel)
    (hprov : ∀ t ∈ pyTail l nch,
      t = sel ∨ (t ≠ sel ∧ t ≠ ';' :: sel ∧ ';' :: t ≠ sel)) :
    commentThenRevert l nch cn = some l := by
  have hnch0 : nch ≠ 0 := by omega
  have hflen : (l.take (l.length - nch)).length = l.length - nch := by
    rw [List.length_take]; omega
  have htllen : (l.drop (l.length - nch)).length = nch := by
    rw [List.length_drop]; omega
  have htoNat : (((cn : ℤ) - nch) + l.length).toNat = l.length - nch + cn := by omega
  have hget : pyGetIdx l ((cn : ℤ) - nch) = l.get? (l.length - nch + cn) := by
    unfold pyGetIdx
    rw [if_neg (by omega : ¬ (0 : ℤ) ≤ (cn : ℤ) - nch)]
    rw [if_pos (by omega : (0 : ℤ) ≤ (cn : ℤ) - nch + l.length)]
    rw [htoNat]
  have hsel' : l.get? (l.length - nch + cn) = some sel := by rw [← hget]; exact hsel
  have htl_get : (l.drop (l.length - nch)).get? cn = some sel := by
    rw [List.get?_eq_getElem?, List.getElem?_drop]
    rw [List.get?_eq_getElem?] at hsel'
    exact hsel'
  have hc1 : commentChains l nch cn
      = some (l.take (l.length - nch) ++ (l.drop (l.length - nch)).map
          (fun t => if t ≠ sel then ';' :: t else t)) := by
    unfold commentChains
    rw [hsel]
    simp only [Option.map_some']
    unfold pyReplaceTail
    rw [if_neg hnch0]
  have hL1len : (l.take (l.length - nch) ++ (l.drop (l.length - nch)).map
      (fun t => if t ≠ sel then ';' :: t else t)).length = l.length := by
    rw [List.length_append, List.length_map, hflen, htllen]; omega
  have hsel1 : pyGetIdx (l.take (l.length - nch) ++ (l.drop (l.length - nch)).map
      (fun t => if t ≠ sel then ';' :: t else t)) ((cn : ℤ) - nch) = some sel := by
    unfold pyGetIdx
    rw [if_neg (by omega : ¬ (0 : ℤ) ≤ (cn : ℤ) - nch)]
    rw [if_pos (by rw [hL1len]; omega)]
    rw [hL1len, htoNat, List.get?_eq_getElem?]
    rw [List.getElem?_append_right (by rw [hflen]; omega)]
    rw [hflen, show l.length - nch + cn - (l.length - nch) = cn by omega]
    rw [List.getElem?_map]
    rw [List.get?_eq_getElem?] at htl_get
    rw [htl_get]
    simp
  have hc2 : revertChains (l.take (l.length - nch) ++ (l.drop (l.length - nch)).map
      (fun t => if t ≠ sel then ';' :: t else t)) nch cn
      = some (l.take (l.length - nch) ++ ((l.drop (l.length - nch)).map
          (fun t => if t ≠ sel then ';' :: t else t)).map
          (fun e => if e ≠ sel then e.drop 1 else e)) := by
    unfold revertChains
    rw [hsel1]
    simp only [Option.map_some']
    unfold pyReplaceTail
    rw [if_neg hnch0, hL1len]
    rw [List.take_left' hflen, List.drop_left' hflen]
  have hmaps : ((l.drop (l.length - nch)).map
      (fun t => if t ≠ sel then ';' :: t else t)).map
      (fun e => if e ≠ sel then e.drop 1 else e) = l.drop (l.length - nch) := by
    rw [List.map_map]
    have hpt : pyTail l nch = l.drop (l.length - nch) := by
      unfold pyTail; rw [if_neg hnch0]
    have hcong : ∀ t ∈ l.drop (l.length - nch),
        ((fun e => if e ≠ sel then e.drop 1 else e) ∘
          (fun t => if t ≠ sel then ';' :: t else t)) t = t := by
      intro t ht
      rcases hprov t (by rw [hpt]; exact ht) with h | ⟨h1, _, h3⟩
      · simp [Function.comp, h]
      · simp [Function.comp, h1, h3]
    rw [List.map_congr_left hcong, List.map_id']
  unfold commentThenRevert
  rw [hc1]
  simp only [Option.some_bind]
  rw [hc2, hmaps, List.take_append_drop]

/-- Witness for `topology_roundtrip`: three topology lines, two chains,
chain iteration 0 selects line `"b"`; commenting and reverting restores
the file. -/
theorem topology_roundtrip_witness :
    ((0 : ℕ) < 2 ∧ 2 ≤ ([pystr "a", pystr "b", pystr "c"] : List PyStr).length
      ∧ pyGetIdx [pystr "a", pystr "b", pystr "c"] ((0 : ℤ) - 2) = some (pystr "b")
      ∧ (∀ t ∈ pyTail [pystr "a", pystr "b", pystr "c"] 2,
          t = pystr "b" ∨ (t ≠ pystr "b" ∧ t ≠ ';' :: pystr "b" ∧ ';' :: t ≠ pystr "b")))
    ∧ commentThenRevert [pystr "a", pystr "b", pystr "c"] 2 0
        = some [pystr "a", pystr "b", pystr "c"] := by
  refine ⟨⟨by decide, by decide, by decide, by decide⟩, ?_⟩
  exact topology_roundtrip [pystr "a", pystr "b", pystr "c"] 2 0 (pystr "b")
    (by decide) (by decide) (by decide) (by decide)

/-! ## Claim C3 -/

/-- Digit characters are never the path separator. -/
theorem digitChar_ne_slash (d : ℕ) : digitChar d ≠ '/' := by
  unfold digitChar
  repeat' split
  all_goals decide

/-- No character of a number's decimal representation is `'/'`. -/
theorem natRepr_ne_slash (n : ℕ) : ∀ ch ∈ natRepr n, ch ≠ '/' := by
  induction n using Nat.strong_induction_on with
  | _ n ih =>
    unfold natRepr
    split
    · intro ch hch
      rw [List.mem_singleton] at hch
      subst hch
      exact digitChar_ne_slash n
    · intro ch hch
      rcases List.mem_append.mp hch with h | h
      · exact ih (n / 10) (Nat.div_lt_self (by omega) (by omega)) ch h
      · rw [List.mem_singleton] at h
        subst h
        exact digitChar_ne_slash _

/-- `takeWhile` passes over a block whose members all satisfy the
predicate. -/
theorem takeWhile_append_all (p : Char → Bool) (l1 l2 : List Char)
    (h : ∀ a ∈ l1, p a = true) :
    (l1 ++ l2).takeWhile p = l1 ++ l2.takeWhile p := by
  induction l1 with
  | nil => simp
  | cons a l ih =>
    simp [List.takeWhile_cons, h a (List.mem_cons_self a l),
      ih (fun b hb => h b (List.mem_cons_of_mem a hb))]

/-- The final path component of `d ++ "/" ++ t` is `t` when `t` holds no
separator. -/
theorem lastComponent_append (d t : PyStr) (h : ∀ ch ∈ t, ch ≠ '/') :
    lastComponent (d ++ '/' :: t) = t := by
  unfold lastComponent
  rw [List.reverse_append, List.reverse_cons, List.append_assoc]
  rw [takeWhile_append_all _ t.reverse _ (fun a ha => by
    have h2 := h a (List.mem_reverse.mp ha)
    simp [h2])]
  simp [List.takeWhile_cons]

/-- Dropping `i` whole blocks of a uniform-block `flatMap` and taking
one block yields the `i`-th block. -/
theorem flatMap_slice_aux (f : PyStr → List PyStr) (N : ℕ)
    (hN : ∀ d, (f d).length = N) :
    ∀ (l : List PyStr) (i : ℕ) (d : PyStr), l.get? i = some d →
      ((l.flatMap f).drop (i * N)).take N = f d := by
  intro l
  induction l with
  | nil =>
    intro i d h
    simp at h
  | cons a l ih =>
    intro i d h
    cases i with
    | zero =>
      injection h with h2
      subst h2
      simp only [Nat.zero_mul, List.flatMap_cons, List.drop_zero]
      exact List.take_left' (hN _)
    | succ i =>
      simp only [List.flatMap_cons]
      rw [show (i + 1) * N = (f a).length + i * N by rw [hN a]; ring]
      rw [List.drop_append]
      exact ih i d h

/-- A uniform-block `flatMap` has `v * N` elements. -/
theorem flatMap_length_uniform (f : PyStr → List PyStr) (N : ℕ)
    (hN : ∀ d, (f d).length = N) :
    ∀ l : List PyStr, (l.flatMap f).length = l.length * N := by
  intro l
  induction l with
  | nil => simp
  | cons a l ih =>
    simp only [List.flatMap_cons, List.length_append, ih, hN a, List.length_cons]
    ring

/-- C3: when the token after `'-n'` in the `DISCO FLAGS` list is the
integer `N` (the value `__len__` returns), `concoord` succeeds and
replaces a `v`-entry working-directory list by exactly `v * N` entries:
for each variant directory `d` (the `i`-th entry), the `i`-th block of
`N` consecutive entries is `d ++ "/" ++ str(n)` for `n = 1..N` in order,
and the final path components of that block are the numbers `1..N` in
order. -/
theorem concoord_expansion (st : GenState) (N : ℕ)
    (hN : lenDG st = some (N : ℤ)) :
    ∃ cmds st', concoord st = .ok (cmds, st')
      ∧ st'.wdlist.length = st.wdlist.length * N
      ∧ ∀ i d, st.wdlist.get? i = some d →
          pySlice st'.wdlist (i * N) (i * N + N)
            = (List.range N).map (fun n => d ++ pystr "/" ++ natRepr (n + 1))
          ∧ (pySlice st'.wdlist (i * N) (i * N + N)).map lastComponent
            = (List.range N).map (fun n => natRepr (n + 1)) := by
  have hf : ∀ d : PyStr,
      ((List.range N).map (fun n => d ++ pystr "/" ++ natRepr (n + 1))).length = N := by
    intro d
    rw [List.length_map, List.length_range]
  have hcc : concoord st = .ok (st.wdlist.flatMap (concoordCmds st),
      { st with wdlist := st.wdlist.flatMap (fun d =>
          (List.range N).map (fun n => d ++ pystr "/" ++ natRepr (n + 1))) }) := by
    unfold concoord
    rw [hN]
    exact rfl
  refine ⟨_, _, hcc, ?_, ?_⟩
  · exact flatMap_length_uniform _ N hf st.wdlist
  · intro i d h
    have hslice : pySlice (st.wdlist.flatMap (fun d =>
        (List.range N).map (fun n => d ++ pystr "/" ++ natRepr (n + 1)))) (i * N) (i * N + N)
        = (List.range N).map (fun n => d ++ pystr "/" ++ natRepr (n + 1)) := by
      unfold pySlice
      rw [show i * N + N - i * N = N by omega]
      exact flatMap_slice_aux _ N hf st.wdlist i d h
    refine ⟨hslice, ?_⟩
    rw [hslice, List.map_map]
    apply List.map_congr_left
    intro n _
    simp only [Function.comp]
    rw [show d ++ pystr "/" ++ natRepr (n + 1) = d ++ '/' :: natRepr (n + 1) by
      rw [List.append_assoc]; rfl]
    exact lastComponent_append d _ (natRepr_ne_slash (n + 1))

/-- A generator state with ensemble size 5 and three variant
directories. -/
def c3state : GenState :=
  ⟨[], [pystr "-n", pystr "5"], [], [], [], [],
   pystr "energy.mdp", pystr "min.mdp", pystr "table.xvg", pystr "params.txt",
   pystr "stability", true, [pystr "A"], pystr "1stn", [pystr "A20G", pystr "B_H10I"],
   pystr "/m", [pystr "/m/1stn", pystr "/m/A20G", pystr "/m/B_H10I"]⟩

/-- Witness for `concoord_expansion`: ensemble size 5, three variants,
fifteen post-expansion entries. -/
theorem concoord_expansion_witness :
    lenDG c3state = some (5 : ℤ)
    ∧ (∃ cmds st', concoord c3state = .ok (cmds, st')
      ∧ st'.wdlist.length = c3state.wdlist.length * 5
      ∧ ∀ i d, c3state.wdlist.get? i = some d →
          pySlice st'.wdlist (i * 5) (i * 5 + 5)
            = (List.range 5).map (fun n => d ++ pystr "/" ++ natRepr (n + 1))
          ∧ (pySlice st'.wdlist (i * 5) (i * 5 + 5)).map lastComponent
            = (List.range 5).map (fun n => natRepr (n + 1))) :=
  ⟨by decide, concoord_expansion c3state 5 (by decide)⟩

/-! ## Claim C4 -/

/-- `pyIndex` fails exactly on absent elements. -/
theorem pyIndex_eq_none (l : List PyStr) (x : PyStr) :
    pyIndex l x = none ↔ x ∉ l := by
  induction l with
  | nil => simp [pyIndex]
  | cons y ys ih =>
    by_cases h : y = x
    · simp [pyIndex, h]
    · simp [pyIndex, h, ih]
      intro _ he
      exact h he.symm

/-- When some expected header is absent, the index comprehension aborts
with the first absent header. -/
theorem allIndices_first_missing (unc : List PyStr) :
    ∀ hs : List PyStr, (∃ hd ∈ hs, hd ∉ unc) →
      ∃ hd, hd ∈ hs ∧ hd ∉ unc ∧ allIndices unc hs = .error hd := by
  intro hs
  induction hs with
  | nil =>
    rintro ⟨hd, hm, _⟩
    simp at hm
  | cons h hs ih =>
    rintro ⟨h0, hm0, hn0⟩
    cases hp : pyIndex unc h with
    | none =>
      exact ⟨h, List.mem_cons_self h hs, (pyIndex_eq_none _ _).mp hp,
        by simp [allIndices, hp]⟩
    | some p =>
      have hh : h ∈ unc := by
        by_contra hcon
        rw [(pyIndex_eq_none unc h).mpr hcon] at hp
        cases hp
      have hmem : h0 ∈ hs := by
        rcases List.mem_cons.mp hm0 with he | hm
        · subst he
          exact absurd hh hn0
        · exact hm
      obtain ⟨h', hm', hn', he'⟩ := ih ⟨h0, hmem, hn0⟩
      exact ⟨h', List.mem_cons_of_mem _ hm', hn',
        by simp [allIndices, hp, he', Except.map]⟩

/-- C4: a flags file in which one of the six expected category headers
never occurs as a (comment-stripped, whitespace-normalized) line makes
`parse_flags` fail with an error naming an absent category — it raises
instead of returning a mapping with an empty default for the missing
category. -/
theorem parse_flags_missing_header (raw : List PyStr)
    (h : ∃ hd ∈ expectedHeaders, hd ∉ preprocess raw) :
    ∃ hd, hd ∈ expectedHeaders ∧ hd ∉ preprocess raw
      ∧ parse_flags raw = .error hd := by
  obtain ⟨hd, hm, hn, he⟩ := allIndices_first_missing (preprocess raw) expectedHeaders h
  exact ⟨hd, hm, hn, by simp only [parse_flags, parse_flags_unc, he]⟩

/-- Witness for `parse_flags_missing_header`: a file whose `DISCO FLAGS`
header is absent. -/
theorem parse_flags_missing_header_witness :
    (∃ hd ∈ expectedHeaders, hd ∉ preprocess
      [pystr "DIST FLAGS", pystr "PDB2GMX FLAGS", pystr "EDITCONF FLAGS",
       pystr "GROMPP FLAGS", pystr "MDRUN FLAGS"])
    ∧ ∃ hd, hd ∈ expectedHeaders ∧ hd ∉ preprocess
        [pystr "DIST FLAGS", pystr "PDB2GMX FLAGS", pystr "EDITCONF FLAGS",
         pystr "GROMPP FLAGS", pystr "MDRUN FLAGS"]
      ∧ parse_flags
          [pystr "DIST FLAGS", pystr "PDB2GMX FLAGS", pystr "EDITCONF FLAGS",
           pystr "GROMPP FLAGS", pystr "MDRUN FLAGS"] = .error hd :=
  ⟨⟨pystr "DISCO FLAGS", by decide, by decide⟩,
    parse_flags_missing_header _ ⟨pystr "DISCO FLAGS", by decide, by decide⟩⟩

/-! ## Claim C6 -/

/-- `list.index` through a block that does not hold the target. -/
theorem pyIndex_append_right (a b : List PyStr) (x : PyStr) (h : x ∉ a) :
    pyIndex (a ++ b) x = (pyIndex b x).map (· + a.length) := by
  induction a with
  | nil =>
    simp only [List.nil_append, List.length_nil]
    cases pyIndex b x <;> simp
  | cons y a ih =>
    have hy : ¬ y = x := by
      intro he
      subst he
      exact h (List.mem_cons_self y a)
    simp only [List.cons_append, pyIndex, if_neg hy, List.append_eq]
    rw [ih (fun hm => h (List.mem_cons_of_mem y hm))]
    cases pyIndex b x with
    | none => simp
    | some p =>
      simp [List.length_cons]
      omega

/-- `str.split(sep)` produces one more field than occurrences of the
separator. -/
theorem pySplit_length (c : Char) (s : PyStr) :
    (pySplit c s).length = s.count c + 1 := by
  induction s with
  | nil => simp [pySplit]
  | cons a as ih =>
    simp only [pySplit]
    cases hp : pySplit c as with
    | nil => exact absurd hp (pySplit_ne_nil c as)
    | cons p ps =>
      rw [hp] at ih
      by_cases hc : a = c
      · subst hc
        simp [List.count_cons] at ih ⊢
        omega
      · simp [List.count_cons, hc] at ih ⊢
        omega

/-- A section of `key=value` lines (one `'='` per line) flattens to two
tokens per line. -/
theorem flatMap_split_length (k : List PyStr) (hk : ∀ l ∈ k, l.count '=' = 1) :
    (k.flatMap (pySplit '=')).length = 2 * k.length := by
  induction k with
  | nil => simp
  | cons a as ih =>
    simp only [List.flatMap_cons, List.length_append, List.length_cons]
    rw [pySplit_length, hk a (List.mem_cons_self a as),
      ih (fun l hl => hk l (List.mem_cons_of_mem a hl))]
    ring

/-- A header (no `'='`) is never one of a section's `key=value` lines. -/
theorem header_not_mem_kv (k : List PyStr) (hk : ∀ l ∈ k, l.count '=' = 1)
    (hd : PyStr) (hhd : hd.count '=' = 0) : hd ∉ k := by
  intro hm
  have h1 := hk hd hm
  omega

/-- Slicing out a middle block. -/
theorem pySlice_mid (pre mid post : List PyStr) (a b : ℕ)
    (ha : pre.length = a) (hb : b - a = mid.length) :
    pySlice (pre ++ (mid ++ post)) a b = mid := by
  unfold pySlice
  rw [List.drop_left' ha, hb]
  exact List.take_left mid post

/-- Slicing out the final block. -/
theorem pySlice_end (pre mid : List PyStr) (a b : ℕ)
    (ha : pre.length = a) (hb : b - a = mid.length) :
    pySlice (pre ++ mid) a b = mid := by
  unfold pySlice
  rw [List.drop_left' ha, hb]
  exact List.take_length mid

/-- Core of C6 on the preprocessed line list: six sections in canonical
header order, each consisting of `key=value` lines, parse to the six
ordered token lists obtained by splitting each line at `'='`. -/
theorem parse_flags_unc_sections (k0 k1 k2 k3 k4 k5 : List PyStr)
    (h0 : ∀ l ∈ k0, l.count '=' = 1) (h1 : ∀ l ∈ k1, l.count '=' = 1)
    (h2 : ∀ l ∈ k2, l.count '=' = 1) (h3 : ∀ l ∈ k3, l.count '=' = 1)
    (h4 : ∀ l ∈ k4, l.count '=' = 1) :
    parse_flags_unc
      (pystr "DIST FLAGS" :: (k0 ++ pystr "DISCO FLAGS" :: (k1 ++ pystr "PDB2GMX FLAGS" ::
        (k2 ++ pystr "EDITCONF FLAGS" :: (k3 ++ pystr "GROMPP FLAGS" ::
        (k4 ++ pystr "MDRUN FLAGS" :: k5))))))
      = .ok [k0.flatMap (pySplit '='), k1.flatMap (pySplit '='),
             k2.flatMap (pySplit '='), k3.flatMap (pySplit '='),
             k4.flatMap (pySplit '='), k5.flatMap (pySplit '=')] := by
  have m0 := header_not_mem_kv k0 h0
  have m1 := header_not_mem_kv k1 h1
  have m2 := header_not_mem_kv k2 h2
  have m3 := header_not_mem_kv k3 h3
  have m4 := header_not_mem_kv k4 h4
  set U : List PyStr := pystr "DIST FLAGS" :: (k0 ++ pystr "DISCO FLAGS" ::
    (k1 ++ pystr "PDB2GMX FLAGS" :: (k2 ++ pystr "EDITCONF FLAGS" ::
    (k3 ++ pystr "GROMPP FLAGS" :: (k4 ++ pystr "MDRUN FLAGS" :: k5))))) with hU
  have n0 : pyIndex U (pystr "DIST FLAGS") = some 0 := by
    rw [hU]
    simp [pyIndex]
  have n1 : pyIndex U (pystr "DISCO FLAGS") = some (k0.length + 1) := by
    rw [hU]
    simp only [pyIndex]
    rw [if_neg (by decide), pyIndex_append_right k0 _ _ (m0 _ (by decide))]
    simp [pyIndex]
  have n2 : pyIndex U (pystr "PDB2GMX FLAGS")
      = some (k0.length + k1.length + 2) := by
    rw [hU]
    simp only [pyIndex]
    rw [if_neg (by decide), pyIndex_append_right k0 _ _ (m0 _ (by decide))]
    simp only [pyIndex]
    rw [if_neg (by decide), pyIndex_append_right k1 _ _ (m1 _ (by decide))]
    simp [pyIndex]
    omega
  have n3 : pyIndex U (pystr "EDITCONF FLAGS")
      = some (k0.length + k1.length + k2.length + 3) := by
    rw [hU]
    simp only [pyIndex]
    rw [if_neg (by decide), pyIndex_append_right k0 _ _ (m0 _ (by decide))]
    simp only [pyIndex]
    rw [if_neg (by decide), pyIndex_append_right k1 _ _ (m1 _ (by decide))]
    simp only [pyIndex]
    rw [if_neg (by decide), pyIndex_append_right k2 _ _ (m2 _ (by decide))]
    simp [pyIndex]
    omega
  have n4 : pyIndex U (pystr "GROMPP FLAGS")
      = some (k0.length + k1.length + k2.length + k3.length + 4) := by
    rw [hU]
    simp only [pyIndex]
    rw [if_neg (by decide), pyIndex_append_right k0 _ _ (m0 _ (by decide))]
    simp only [pyIndex]
    rw [if_neg (by decide), pyIndex_append_right k1 _ _ (m1 _ (by decide))]
    simp only [pyIndex]
    rw [if_neg (by decide), pyIndex_append_right k2 _ _ (m2 _ (by decide))]
    simp only [pyIndex]
    rw [if_neg (by decide), pyIndex_append_right k3 _ _ (m3 _ (by decide))]
    simp [pyIndex]
    omega
  have n5 : pyIndex U (pystr "MDRUN FLAGS")
      = some (k0.length + k1.length + k2.length + k3.length + k4.length + 5) := by
    rw [hU]
    simp only [pyIndex]
    rw [if_neg (by decide), pyIndex_append_right k0 _ _ (m0 _ (by decide))]
    simp only [pyIndex]
    rw [if_neg (by decide), pyIndex_append_right k1 _ _ (m1 _ (by decide))]
    simp only [pyIndex]
    rw [if_neg (by decide), pyIndex_append_right k2 _ _ (m2 _ (by decide))]
    simp only [pyIndex]
    rw [if_neg (by decide), pyIndex_append_right k3 _ _ (m3 _ (by decide))]
    simp only [pyIndex]
    rw [if_neg (by decide), pyIndex_append_right k4 _ _ (m4 _ (by decide))]
    simp [pyIndex]
    omega
  have hAll : allIndices U expectedHeaders
      = .ok [0, k0.length + 1, k0.length + k1.length + 2,
             k0.length + k1.length + k2.length + 3,
             k0.length + k1.length + k2.length + k3.length + 4,
             k0.length + k1.length + k2.length + k3.length + k4.length + 5] := by
    simp [allIndices, expectedHeaders, n0, n1, n2, n3, n4, n5, Except.map]
  have s0 : pySlice U (0 + 1) (k0.length + 1) = k0 := by
    rw [hU, show pystr "DIST FLAGS" :: (k0 ++ pystr "DISCO FLAGS" ::
      (k1 ++ pystr "PDB2GMX FLAGS" :: (k2 ++ pystr "EDITCONF FLAGS" ::
      (k3 ++ pystr "GROMPP FLAGS" :: (k4 ++ pystr "MDRUN FLAGS" :: k5)))))
      = [pystr "DIST FLAGS"] ++ (k0 ++ (pystr "DISCO FLAGS" ::
      (k1 ++ pystr "PDB2GMX FLAGS" :: (k2 ++ pystr "EDITCONF FLAGS" ::
      (k3 ++ pystr "GROMPP FLAGS" :: (k4 ++ pystr "MDRUN FLAGS" :: k5))))))
      by simp]
    exact pySlice_mid _ _ _ _ _ (by simp) (by omega)
  have s1 : pySlice U (k0.length + 1 + 1) (k0.length + k1.length + 2) = k1 := by
    rw [hU, show pystr "DIST FLAGS" :: (k0 ++ pystr "DISCO FLAGS" ::
      (k1 ++ pystr "PDB2GMX FLAGS" :: (k2 ++ pystr "EDITCONF FLAGS" ::
      (k3 ++ pystr "GROMPP FLAGS" :: (k4 ++ pystr "MDRUN FLAGS" :: k5)))))
      = (pystr "DIST FLAGS" :: k0 ++ [pystr "DISCO FLAGS"]) ++ (k1 ++
      (pystr "PDB2GMX FLAGS" :: (k2 ++ pystr "EDITCONF FLAGS" ::
      (k3 ++ pystr "GROMPP FLAGS" :: (k4 ++ pystr "MDRUN FLAGS" :: k5)))))
      by simp]
    exact pySlice_mid _ _ _ _ _
      (by simp only [List.length_cons, List.length_append, List.length_nil]; try omega)
      (by omega)
  have s2 : pySlice U (k0.length + k1.length + 2 + 1)
      (k0.length + k1.length + k2.length + 3) = k2 := by
    rw [hU, show pystr "DIST FLAGS" :: (k0 ++ pystr "DISCO FLAGS" ::
      (k1 ++ pystr "PDB2GMX FLAGS" :: (k2 ++ pystr "EDITCONF FLAGS" ::
      (k3 ++ pystr "GROMPP FLAGS" :: (k4 ++ pystr "MDRUN FLAGS" :: k5)))))
      = (pystr "DIST FLAGS" :: k0 ++ pystr "DISCO FLAGS" :: k1 ++
      [pystr "PDB2GMX FLAGS"]) ++ (k2 ++ (pystr "EDITCONF FLAGS" ::
      (k3 ++ pystr "GROMPP FLAGS" :: (k4 ++ pystr "MDRUN FLAGS" :: k5))))
      by simp]
    exact pySlice_mid _ _ _ _ _
      (by simp only [List.length_cons, List.length_append, List.length_nil]; try omega)
      (by omega)
  have s3 : pySlice U (k0.length + k1.length + k2.length + 3 + 1)
      (k0.length + k1.length + k2.length + k3.length + 4) = k3 := by
    rw [hU, show pystr "DIST FLAGS" :: (k0 ++ pystr "DISCO FLAGS" ::
      (k1 ++ pystr "PDB2GMX FLAGS" :: (k2 ++ pystr "EDITCONF FLAGS" ::
      (k3 ++ pystr "GROMPP FLAGS" :: (k4 ++ pystr "MDRUN FLAGS" :: k5)))))
      = (pystr "DIST FLAGS" :: k0 ++ pystr "DISCO FLAGS" :: k1 ++
      pystr "PDB2GMX FLAGS" :: k2 ++ [pystr "EDITCONF FLAGS"]) ++ (k3 ++
      (pystr "GROMPP FLAGS" :: (k4 ++ pystr "MDRUN FLAGS" :: k5)))
      by simp]
    exact pySlice_mid _ _ _ _ _
      (by simp only [List.length_cons, List.length_append, List.length_nil]; try omega)
      (by omega)
  have s4 : pySlice U (k0.length + k1.length + k2.length + k3.length + 4 + 1)
      (k0.length + k1.length + k2.length + k3.length + k4.length + 5) = k4 := by
    rw [hU, show pystr "DIST FLAGS" :: (k0 ++ pystr "DISCO FLAGS" ::
      (k1 ++ pystr "PDB2GMX FLAGS" :: (k2 ++ pystr "EDITCONF FLAGS" ::
      (k3 ++ pystr "GROMPP FLAGS" :: (k4 ++ pystr "MDRUN FLAGS" :: k5)))))
      = (pystr "DIST FLAGS" :: k0 ++ pystr "DISCO FLAGS" :: k1 ++
      pystr "PDB2GMX FLAGS" :: k2 ++ pystr "EDITCONF FLAGS" :: k3 ++
      [pystr "GROMPP FLAGS"]) ++ (k4 ++ (pystr "MDRUN FLAGS" :: k5))
      by simp]
    exact pySlice_mid _ _ _ _ _
      (by simp only [List.length_cons, List.length_append, List.length_nil]; try omega)
      (by omega)
  have hULen : U.length
      = k0.length + k1.length + k2.length + k3.length + k4.length + k5.length + 6 := by
    rw [hU]
    simp only [List.length_cons, List.length_append]
    omega
  have s5 : pySlice U
      (k0.length + k1.length + k2.length + k3.length + k4.length + 5 + 1) U.length
      = k5 := by
    rw [hULen]
    rw [hU, show pystr "DIST FLAGS" :: (k0 ++ pystr "DISCO FLAGS" ::
      (k1 ++ pystr "PDB2GMX FLAGS" :: (k2 ++ pystr "EDITCONF FLAGS" ::
      (k3 ++ pystr "GROMPP FLAGS" :: (k4 ++ pystr "MDRUN FLAGS" :: k5)))))
      = (pystr "DIST FLAGS" :: k0 ++ pystr "DISCO FLAGS" :: k1 ++
      pystr "PDB2GMX FLAGS" :: k2 ++ pystr "EDITCONF FLAGS" :: k3 ++
      pystr "GROMPP FLAGS" :: k4 ++ [pystr "MDRUN FLAGS"]) ++ k5
      by simp]
    exact pySlice_end _ _ _ _
      (by simp only [List.length_cons, List.length_append, List.length_nil]; try omega)
      (by omega)
  simp only [parse_flags_unc, hAll, List.cons_append, List.nil_append, List.tail_cons,
    List.zip_cons_cons, List.zip_nil_right, List.map_cons, List.map_nil]
  rw [s0, s1, s2, s3, s4, s5]

/-- C6: for every flags file whose (comment-stripped, blank-dropped,
whitespace-normalized) content is the six expected headers in canonical
order, each followed by its section of `key=value` lines (exactly one
`'='` per line), `parse_flags` returns exactly six categories, and the
ordered token list of category `i` is obtained by splitting each of its
`m_i` lines at `'='` in order, hence has exactly `2 * m_i` tokens. -/
theorem parse_flags_sections (raw : List PyStr) (k0 k1 k2 k3 k4 k5 : List PyStr)
    (hpre : preprocess raw =
      pystr "DIST FLAGS" :: (k0 ++ pystr "DISCO FLAGS" :: (k1 ++ pystr "PDB2GMX FLAGS" ::
        (k2 ++ pystr "EDITCONF FLAGS" :: (k3 ++ pystr "GROMPP FLAGS" ::
        (k4 ++ pystr "MDRUN FLAGS" :: k5))))))
    (h0 : ∀ l ∈ k0, l.count '=' = 1) (h1 : ∀ l ∈ k1, l.count '=' = 1)
    (h2 : ∀ l ∈ k2, l.count '=' = 1) (h3 : ∀ l ∈ k3, l.count '=' = 1)
    (h4 : ∀ l ∈ k4, l.count '=' = 1) (h5 : ∀ l ∈ k5, l.count '=' = 1) :
    parse_flags raw
      = .ok [k0.flatMap (pySplit '='), k1.flatMap (pySplit '='),
             k2.flatMap (pySplit '='), k3.flatMap (pySplit '='),
             k4.flatMap (pySplit '='), k5.flatMap (pySplit '=')]
    ∧ (k0.flatMap (pySplit '=')).length = 2 * k0.length
    ∧ (k1.flatMap (pySplit '=')).length = 2 * k1.length
    ∧ (k2.flatMap (pySplit '=')).length = 2 * k2.length
    ∧ (k3.flatMap (pySplit '=')).length = 2 * k3.length
    ∧ (k4.flatMap (pySplit '=')).length = 2 * k4.length
    ∧ (k5.flatMap (pySplit '=')).length = 2 * k5.length := by
  refine ⟨?_, flatMap_split_length k0 h0, flatMap_split_length k1 h1,
    flatMap_split_length k2 h2, flatMap_split_length k3 h3,
    flatMap_split_length k4 h4, flatMap_split_length k5 h5⟩
  unfold parse_flags
  rw [hpre]
  exact parse_flags_unc_sections k0 k1 k2 k3 k4 k5 h0 h1 h2 h3 h4

/-- Witness for `parse_flags_sections`: a concrete flags file with
comments and blank lines, sections of sizes 0, 2, 2, 0, 1, 0. -/
theorem parse_flags_sections_witness :
    preprocess
      [pystr "DIST FLAGS", pystr "DISCO FLAGS", pystr "-n=3 ; s", pystr "-viol=1.0",
       pystr "PDB2GMX FLAGS", pystr "-ff=oplsaa", pystr "-water=tip4p",
       pystr "EDITCONF FLAGS", pystr "", pystr "GROMPP FLAGS", pystr "-maxwarn=2",
       pystr "MDRUN FLAGS", pystr ";c"]
      = pystr "DIST FLAGS" :: (([] : List PyStr) ++ pystr "DISCO FLAGS" ::
        ([pystr "-n=3", pystr "-viol=1.0"] ++ pystr "PDB2GMX FLAGS" ::
        ([pystr "-ff=oplsaa", pystr "-water=tip4p"] ++ pystr "EDITCONF FLAGS" ::
        (([] : List PyStr) ++ pystr "GROMPP FLAGS" ::
        ([pystr "-maxwarn=2"] ++ pystr "MDRUN FLAGS" :: ([] : List PyStr))))))
    ∧ (parse_flags
        [pystr "DIST FLAGS", pystr "DISCO FLAGS", pystr "-n=3 ; s", pystr "-viol=1.0",
         pystr "PDB2GMX FLAGS", pystr "-ff=oplsaa", pystr "-water=tip4p",
         pystr "EDITCONF FLAGS", pystr "", pystr "GROMPP FLAGS", pystr "-maxwarn=2",
         pystr "MDRUN FLAGS", pystr ";c"]
        = .ok [([] : List PyStr).flatMap (pySplit '='),
               [pystr "-n=3", pystr "-viol=1.0"].flatMap (pySplit '='),
               [pystr "-ff=oplsaa", pystr "-water=tip4p"].flatMap (pySplit '='),
               ([] : List PyStr).flatMap (pySplit '='),
               [pystr "-maxwarn=2"].flatMap (pySplit '='),
               ([] : List PyStr).flatMap (pySplit '=')]
      ∧ (([] : List PyStr).flatMap (pySplit '=')).length = 2 * ([] : List PyStr).length
      ∧ ([pystr "-n=3", pystr "-viol=1.0"].flatMap (pySplit '=')).length
          = 2 * ([pystr "-n=3", pystr "-viol=1.0"] : List PyStr).length
      ∧ ([pystr "-ff=oplsaa", pystr "-water=tip4p"].flatMap (pySplit '=')).length
          = 2 * ([pystr "-ff=oplsaa", pystr "-water=tip4p"] : List PyStr).length
      ∧ (([] : List PyStr).flatMap (pySplit '=')).length = 2 * ([] : List PyStr).length
      ∧ ([pystr "-maxwarn=2"].flatMap (pySplit '=')).length
          = 2 * ([pystr "-maxwarn=2"] : List PyStr).length
      ∧ (([] : List PyStr).flatMap (pySplit '=')).length
          = 2 * ([] : List PyStr).length) :=
  ⟨by decide,
    parse_flags_sections
      [pystr "DIST FLAGS", pystr "DISCO FLAGS", pystr "-n=3 ; s", pystr "-viol=1.0",
       pystr "PDB2GMX FLAGS", pystr "-ff=oplsaa", pystr "-water=tip4p",
       pystr "EDITCONF FLAGS", pystr "", pystr "GROMPP FLAGS", pystr "-maxwarn=2",
       pystr "MDRUN FLAGS", pystr ";c"]
      [] [pystr "-n=3", pystr "-viol=1.0"] [pystr "-ff=oplsaa", pystr "-water=tip4p"]
      [] [pystr "-maxwarn=2"] []
      (by decide) (by decide) (by decide) (by decide) (by decide) (by decide) (by decide)⟩

end CCPBSA
